import Mathlib

/-!
Verification development for the pilot repository's session & execution-pipeline
coordinator (`src/server/src/types/index.ts`, SocketController) and its
rate limiter (`src/server/src/utils/SecurityManager.ts`).

The TypeScript classes are shallowly embedded: JS `Map`s become association
lists in insertion order, `Date.now()` values become `Nat` parameters, each
awaited external call (browser service, AI service) becomes an oracle
parameter of type `Except String _` (`.error` models a rejected promise /
thrown exception), and each socket `emit` is collected into an event list.
Every handler is a total function returning the new state plus the emitted
events, mirroring the source's try/catch/finally structure branch by branch.
-/

namespace Pilot

/-- `BrowserCommand.action` values (src/server/src/types/index.ts). -/
inductive Action
  | navigate
  | click
  | type
  | screenshot
  | scroll
  | wait
  | extract
  | evaluate
  deriving DecidableEq

/-- Rendering of an `Action` as the string used by the TS union type. -/
def actionStr : Action → String
  | .navigate => "navigate"
  | .click => "click"
  | .type => "type"
  | .screenshot => "screenshot"
  | .scroll => "scroll"
  | .wait => "wait"
  | .extract => "extract"
  | .evaluate => "evaluate"

/-- `BrowserCommand` (the fields the controller logic reads / forwards). -/
structure BrowserCommand where
  action : Action
  selector : Option String := none
  value : Option String := none
  url : Option String := none
  deriving DecidableEq

/-- `BrowserResponse` returned by `browserService.executeCommand`. -/
structure BrowserResponse where
  success : Bool
  data : Option String := none
  error : Option String := none
  executionTime : Option Nat := none
  deriving DecidableEq

/-- `BrowserInstanceState.status` union. -/
inductive BrowserStatus
  | initializing
  | ready
  | busy
  | error
  | closed
  deriving DecidableEq

/-- Rendering of a `BrowserStatus` as the TS string literal. -/
def statusStr : BrowserStatus → String
  | .initializing => "initializing"
  | .ready => "ready"
  | .busy => "busy"
  | .error => "error"
  | .closed => "closed"

/-- `BrowserInstanceState.error` record. -/
structure ErrorInfo where
  message : String
  code : Option String := none
  timestamp : Nat
  deriving DecidableEq

/-- `BrowserInstanceState`: per-session browser instance bookkeeping. -/
structure BrowserInstanceState where
  id : String
  socketId : String
  status : BrowserStatus
  currentUrl : Option String := none
  pageTitle : Option String := none
  createdAt : Nat
  lastActivity : Nat
  currentCommand : Option BrowserCommand := none
  error : Option ErrorInfo := none
  deriving DecidableEq

/-- `ClientSession` in SocketController. -/
structure ClientSession where
  id : String
  socketId : String
  clientIp : String
  connectedAt : Nat
  lastActivity : Nat
  commandCount : Nat
  browserInstanceId : Option String := none
  deriving DecidableEq

/-- `ExecutionContext.status` union. -/
inductive ExecStatus
  | pending
  | running
  | completed
  | failed
  | cancelled
  deriving DecidableEq

/-- `ExecutionContext` for one in-flight command batch. -/
structure ExecutionContext where
  id : String
  sessionId : String
  userInput : String
  commands : List BrowserCommand
  currentIndex : Nat
  startTime : Nat
  results : List BrowserResponse
  status : ExecStatus
  deriving DecidableEq

/-- `connectionStats` of SocketController. `activeConnections` is `Int`
because JS numbers allow the decrement to go negative. -/
structure ConnectionStats where
  totalConnections : Nat
  activeConnections : Int
  totalCommands : Nat
  failedCommands : Nat
  averageExecutionTime : ℚ
  deriving DecidableEq

/-- The mutable maps of SocketController. JS `Map`s are modelled as
association lists in insertion order. -/
structure ControllerState where
  clientSessions : List (String × ClientSession)
  browserInstances : List (String × BrowserInstanceState)
  executionQueue : List (String × ExecutionContext)
  connectionStats : ConnectionStats
  deriving DecidableEq

/-- Server→client socket events emitted by SocketController. -/
inductive ServerEvent
  | commandProgress (status : String) (progress : Nat) (currentStep : Option String)
  | commandResult (success : Bool) (data : Option (List BrowserResponse))
      (error : Option String) (executionTime : Nat)
  | screenshotUpdate (screenshot : String) (timestamp : Nat)
  | browserStatus (status : String)
  | errorEvent (message : String) (code : Option String) (details : Option String)
  deriving DecidableEq

/-- `AIParseResponse` from AIService (`commands` may be absent). -/
structure AIParseResponse where
  success : Bool
  commands : Option (List BrowserCommand) := none
  error : Option String := none
  deriving DecidableEq

/-! ### JS `Map` operations on association lists

JS `Map`s keep at most one entry per key, in insertion order. `get` finds
the entry, `set` replaces it in place (appending when absent), `delete`
removes it. With unique keys the recursive versions below are extensionally
the JS operations. -/

/-- `Map.get`: the entry with the key, if any. -/
def mapGet {α : Type} : List (String × α) → String → Option α
  | [], _ => none
  | p :: rest, k => if p.1 = k then some p.2 else mapGet rest k

/-- `Map.set`: update in place preserving insertion order, else append. -/
def mapSet {α : Type} : List (String × α) → String → α → List (String × α)
  | [], k, v => [(k, v)]
  | p :: rest, k, v => if p.1 = k then (k, v) :: rest else p :: mapSet rest k v

/-- `Map.delete`: drop the entry with the key. -/
def mapDelete {α : Type} (m : List (String × α)) (k : String) :
    List (String × α) :=
  m.filter (fun p => ¬ p.1 = k)

theorem mapGet_mapSet_self {α : Type} (m : List (String × α)) (k : String) (v : α) :
    mapGet (mapSet m k v) k = some v := by
  induction m with
  | nil => simp [mapGet, mapSet]
  | cons p rest ih =>
    by_cases hp : p.1 = k
    · simp [mapGet, mapSet, hp]
    · simp [mapGet, mapSet, hp, ih]

theorem mapGet_mapSet_ne {α : Type} (m : List (String × α)) (k k' : String) (v : α)
    (h : k' ≠ k) : mapGet (mapSet m k v) k' = mapGet m k' := by
  have hk : ¬ (k = k') := fun hh => h hh.symm
  induction m with
  | nil => simp [mapGet, mapSet, hk]
  | cons p rest ih =>
    by_cases hp : p.1 = k
    · have hp' : ¬ (p.1 = k') := by rw [hp]; exact hk
      simp [mapGet, mapSet, hp, hp', hk]
    · by_cases hp' : p.1 = k'
      · simp [mapGet, mapSet, hp, hp', h]
      · simp [mapGet, mapSet, hp, hp', ih]

theorem mapGet_mapDelete_self {α : Type} (m : List (String × α)) (k : String) :
    mapGet (mapDelete m k) k = none := by
  induction m with
  | nil => rfl
  | cons p rest ih =>
    by_cases hp : p.1 = k
    · simpa [mapDelete, List.filter, hp] using ih
    · simpa [mapDelete, List.filter, hp, mapGet] using ih

theorem mapDelete_of_get_none {α : Type} (m : List (String × α)) (k : String)
    (h : mapGet m k = none) : mapDelete m k = m := by
  induction m with
  | nil => rfl
  | cons p rest ih =>
    by_cases hp : p.1 = k
    · simp [mapGet, hp] at h
    · have h' : mapGet rest k = none := by simpa [mapGet, hp] using h
      simp [mapDelete, List.filter, hp] at ih ⊢
      exact ih h'

/-! ### The execution pipeline (SocketController) -/

/-- `Math.round(((i + 1) / total) * 80) + 20` — the per-command progress
percentage of `executeCommands`, with `i` the 0-based command index.
`Math.round x = ⌊x + 1/2⌋` for non-negative `x`, so the rounded value is
`(160 * (i + 1) + total) / (2 * total)` in natural division. -/
def progressPercent (i total : Nat) : Nat :=
  (160 * (i + 1) + total) / (2 * total) + 20

/-- Actions after which `executeCommands` refreshes the screenshot
(`['navigate', 'click', 'type'].includes(command.action)`). -/
def isMajorAction : Action → Bool
  | .navigate => true
  | .click => true
  | .type => true
  | _ => false

/-- `updateBrowserState`: refresh page metadata from the engine; the inner
try/catch swallows failures, leaving the instance untouched. -/
def updateBrowserState (bs : BrowserInstanceState)
    (page : Except String (String × String)) (now : Nat) : BrowserInstanceState :=
  match page with
  | .error _ => bs
  | .ok (url, title) =>
      { bs with currentUrl := some url, pageTitle := some title, lastActivity := now }

/-- Output of the command loop of `executeCommands`. -/
structure LoopOut where
  events : List ServerEvent
  results : List BrowserResponse
  calls : List Nat
  bs : BrowserInstanceState
  thrown : Option String
  finalIndex : Nat
  deriving DecidableEq

/-- The `for` loop body of `executeCommands`, one iteration per remaining
command. `total` is `execution.commands.length`, `i` the current index.
`execRes i` is the outcome of `browserService.executeCommand` for command
`i` (`.error` = rejected promise), `shotRes i` of `takeScreenshot` after it,
`pageRes i` of the page-metadata refresh. A failed result or a rejected
`executeCommand`/`takeScreenshot` promise throws (`thrown = some msg`) and
stops the loop; `calls` records which commands were dispatched to the
browser service. `finalIndex` mirrors `execution.currentIndex` after the
loop (`i - 1` at the base case: the index of the last command entered). -/
def execLoop (total : Nat) (execRes : Nat → Except String BrowserResponse)
    (shotRes : Nat → Except String String)
    (pageRes : Nat → Except String (String × String)) (now : Nat) :
    List BrowserCommand → Nat → BrowserInstanceState → LoopOut
  | [], i, bs => ⟨[], [], [], bs, none, i - 1⟩
  | c :: rest, i, bs =>
    let ev := ServerEvent.commandProgress "executing" (progressPercent i total)
      (some ("명령어 실행 중: " ++ actionStr c.action))
    match execRes i with
    | .error e => ⟨[ev], [], [i], bs, some e, i⟩
    | .ok r =>
      if r.success = false then
        ⟨[ev], [r], [i], bs, some (r.error.getD "Command execution failed"), i⟩
      else
        let shotStep : Except String (List ServerEvent) :=
          if isMajorAction c.action then
            match shotRes i with
            | .error e => .error e
            | .ok shot => .ok [ServerEvent.screenshotUpdate shot now]
          else .ok []
        match shotStep with
        | .error e => ⟨[ev], [r], [i], bs, some e, i⟩
        | .ok shotEvents =>
          let bs' := updateBrowserState bs (pageRes i) now
          let tail := execLoop total execRes shotRes pageRes now rest (i + 1) bs'
          ⟨ev :: shotEvents ++ tail.events, r :: tail.results, i :: tail.calls,
            tail.bs, tail.thrown, tail.finalIndex⟩

/-- Output of `executeCommands` / `handleExecuteCommand`: the new controller
state, the events emitted on the socket, the indices of the commands
dispatched to the browser service, and (for `executeCommands`) the exception
propagated to the caller, if any. -/
structure ExecOut where
  state : ControllerState
  events : List ServerEvent
  calls : List Nat
  thrown : Option String
  deriving DecidableEq

/-- `executeCommands`: marks the instance busy with the current command,
drives the loop, and on completion releases the instance (`ready`, current
command cleared) emitting the 100% progress event and the success result;
on a throw it marks the execution `failed`, the instance `error` (recording
the error, `currentCommand` untouched), and rethrows. Field writes through
the aliased `execution` / `browserState` objects are modelled as `mapSet`
of the final values, which is the sequential net effect. -/
def executeCommandsFinish (s : ControllerState) (sessionId : String)
    (execution : ExecutionContext) (now : Nat) (lo : LoopOut) : ExecOut :=
  match lo.thrown with
  | some msg =>
    let execution' := { execution with
                        status := ExecStatus.failed,
                        currentIndex := lo.finalIndex,
                        results := execution.results ++ lo.results }
    let bs2 := { lo.bs with
                 status := BrowserStatus.error,
                 error := some ⟨msg, some "COMMAND_EXECUTION_FAILED", now⟩ }
    ⟨{ s with
        browserInstances := mapSet s.browserInstances sessionId bs2,
        executionQueue := mapSet s.executionQueue execution.id execution' },
      lo.events, lo.calls, some msg⟩
  | none =>
    let execution' := { execution with
                        status := ExecStatus.completed,
                        currentIndex := lo.finalIndex,
                        results := execution.results ++ lo.results }
    let bs2 := { lo.bs with status := BrowserStatus.ready, currentCommand := none }
    ⟨{ s with
        browserInstances := mapSet s.browserInstances sessionId bs2,
        executionQueue := mapSet s.executionQueue execution.id execution' },
      lo.events ++ [ServerEvent.commandProgress "completed" 100 (some "실행 완료"),
        ServerEvent.commandResult true (some (execution.results ++ lo.results)) none
          (now - execution.startTime)],
      lo.calls, none⟩

/-- The browser instance as mutated on entry to `executeCommands`:
`browserState.status = 'busy'` and
`browserState.currentCommand = execution.commands[execution.currentIndex]`. -/
def busyInstance (bs0 : BrowserInstanceState) (execution : ExecutionContext) :
    BrowserInstanceState :=
  { bs0 with
    status := BrowserStatus.busy,
    currentCommand := execution.commands.get? execution.currentIndex }

/-- `executeCommands`: throws when the instance is missing; otherwise marks
the instance busy with the current command, drives the loop
(`executeCommandsFinish` is the code after the loop: on completion it
releases the instance — `ready`, current command cleared — emitting the
100% progress event and the success result; on a throw it marks the
execution `failed` and the instance `error`, recording the error but
leaving `currentCommand` untouched, and rethrows). Field writes through the
aliased `execution` / `browserState` objects are modelled as `mapSet` of
the final values, which is the sequential net effect. -/
def executeCommands (s : ControllerState) (sessionId : String)
    (execution : ExecutionContext)
    (execRes : Nat → Except String BrowserResponse)
    (shotRes : Nat → Except String String)
    (pageRes : Nat → Except String (String × String)) (now : Nat) : ExecOut :=
  match mapGet s.browserInstances sessionId with
  | none => ⟨s, [], [], some "Browser instance not found"⟩
  | some bs0 =>
    executeCommandsFinish s sessionId execution now
      (execLoop execution.commands.length execRes shotRes pageRes now
        execution.commands 0 (busyInstance bs0 execution))

theorem executeCommandsFinish_some (s : ControllerState) (sessionId : String)
    (execution : ExecutionContext) (now : Nat) (lo : LoopOut) (msg : String)
    (h : lo.thrown = some msg) :
    executeCommandsFinish s sessionId execution now lo =
      ⟨{ s with
          browserInstances := mapSet s.browserInstances sessionId
            { lo.bs with
              status := BrowserStatus.error,
              error := some ⟨msg, some "COMMAND_EXECUTION_FAILED", now⟩ },
          executionQueue := mapSet s.executionQueue execution.id
            { execution with
              status := ExecStatus.failed,
              currentIndex := lo.finalIndex,
              results := execution.results ++ lo.results } },
        lo.events, lo.calls, some msg⟩ := by
  unfold executeCommandsFinish
  rw [h]

theorem executeCommandsFinish_none (s : ControllerState) (sessionId : String)
    (execution : ExecutionContext) (now : Nat) (lo : LoopOut)
    (h : lo.thrown = none) :
    executeCommandsFinish s sessionId execution now lo =
      ⟨{ s with
          browserInstances := mapSet s.browserInstances sessionId
            { lo.bs with status := BrowserStatus.ready, currentCommand := none },
          executionQueue := mapSet s.executionQueue execution.id
            { execution with
              status := ExecStatus.completed,
              currentIndex := lo.finalIndex,
              results := execution.results ++ lo.results } },
        lo.events ++ [ServerEvent.commandProgress "completed" 100 (some "실행 완료"),
          ServerEvent.commandResult true (some (execution.results ++ lo.results)) none
            (now - execution.startTime)],
        lo.calls, none⟩ := by
  unfold executeCommandsFinish
  rw [h]

/-- `validateCommandInput`: basic checks, then the SecurityManager verdict
(`secCheck`, external; `.error` = the check itself threw). Returns the error
message when invalid. An empty string is falsy in JS, hence rejected by
`!userInput`. -/
def validateCommandInput (userInput : String)
    (secCheck : Except String (Bool × List String)) : Option String :=
  if userInput = "" then some "Invalid input format"
  else if userInput.length > 1000 then some "Input too long"
  else match secCheck with
    | .error _ => some "Validation error"
    | .ok (safe, reasons) =>
        if safe then none
        else some ("Security check failed: " ++ String.intercalate ", " reasons)

/-- `updateAverageExecutionTime` (called after `totalCommands` was already
incremented). -/
def updateAverageExecutionTime (stats : ConnectionStats) (executionTime : Nat) :
    ConnectionStats :=
  let totalTime := stats.averageExecutionTime * stats.totalCommands
  { stats with averageExecutionTime :=
      (totalTime + executionTime) / (stats.totalCommands : ℚ) }

/-- The catch+finally tail of `handleExecuteCommand`: bump `failedCommands`,
emit the failure `command_result`, and drop the execution from the queue. -/
def handlerCatch (s : ControllerState) (executionId : String)
    (events : List ServerEvent) (calls : List Nat) (msg : String)
    (now startTime : Nat) : ExecOut :=
  ⟨{ s with
      executionQueue := mapDelete s.executionQueue executionId,
      connectionStats := { s.connectionStats with
                           failedCommands := s.connectionStats.failedCommands + 1 } },
    events ++ [ServerEvent.commandResult false none (some msg) (now - startTime)],
    calls, none⟩

/-- The execution phase of `handleExecuteCommand`, reached once the session
and instance are present and ready, validation passed, the initial
screenshot resolved and the AI parse succeeded with command list `cmds`:
create the `running` execution, insert it into the queue, run
`executeCommands`, and either take the catch branch (on a throw) or the
success branch (bump the session counters and the stats); the `finally`
deletes the execution from the queue in both branches. `ev0` below is the
parsing progress event already emitted before this phase. -/
def handlerFinish (sessionId executionId : String) (session : ClientSession)
    (now startTime : Nat) (r : ExecOut) : ExecOut :=
  let ev0 := ServerEvent.commandProgress "parsing" 10 (some "AI 명령어 파싱 중...")
  match r.thrown with
  | some msg =>
    handlerCatch r.state executionId (ev0 :: r.events) r.calls msg now startTime
  | none =>
    let session' := { session with
                      commandCount := session.commandCount + 1,
                      lastActivity := now }
    let stats0 := r.state.connectionStats
    let stats' := updateAverageExecutionTime
      { stats0 with totalCommands := stats0.totalCommands + 1 }
      (now - startTime)
    ⟨{ r.state with
        clientSessions := mapSet r.state.clientSessions sessionId session',
        executionQueue := mapDelete r.state.executionQueue executionId,
        connectionStats := stats' },
      ev0 :: r.events, r.calls, none⟩

/-- The execution context created by `handleExecuteCommand` once parsing
succeeded with commands `cmds`. -/
def mkExecution (sessionId executionId userInput : String)
    (cmds : List BrowserCommand) (startTime : Nat) : ExecutionContext :=
  { id := executionId, sessionId := sessionId, userInput := userInput,
    commands := cmds, currentIndex := 0, startTime := startTime,
    results := [], status := ExecStatus.running }

def handlerRun (s : ControllerState) (sessionId executionId userInput : String)
    (session : ClientSession) (cmds : List BrowserCommand)
    (execRes : Nat → Except String BrowserResponse)
    (shotRes : Nat → Except String String)
    (pageRes : Nat → Except String (String × String))
    (now startTime : Nat) : ExecOut :=
  let execution := mkExecution sessionId executionId userInput cmds startTime
  handlerFinish sessionId executionId session now startTime
    (executeCommands
      { s with executionQueue := mapSet s.executionQueue executionId execution }
      sessionId execution execRes shotRes pageRes now)

theorem handlerFinish_some (sessionId executionId : String) (session : ClientSession)
    (now startTime : Nat) (r : ExecOut) (msg : String) (h : r.thrown = some msg) :
    handlerFinish sessionId executionId session now startTime r =
      handlerCatch r.state executionId
        (ServerEvent.commandProgress "parsing" 10 (some "AI 명령어 파싱 중...") :: r.events)
        r.calls msg now startTime := by
  unfold handlerFinish
  rw [h]

theorem handlerFinish_none (sessionId executionId : String) (session : ClientSession)
    (now startTime : Nat) (r : ExecOut) (h : r.thrown = none) :
    handlerFinish sessionId executionId session now startTime r =
      ⟨{ r.state with
          clientSessions := mapSet r.state.clientSessions sessionId
            { session with
              commandCount := session.commandCount + 1,
              lastActivity := now },
          executionQueue := mapDelete r.state.executionQueue executionId,
          connectionStats := updateAverageExecutionTime
            { r.state.connectionStats with
              totalCommands := r.state.connectionStats.totalCommands + 1 }
            (now - startTime) },
        ServerEvent.commandProgress "parsing" 10 (some "AI 명령어 파싱 중...") :: r.events,
        r.calls, none⟩ := by
  unfold handlerFinish
  rw [h]

/-- `handleExecuteCommand`: the `execute_command` submission handler. The
whole body is a try/catch/finally, so it never propagates an exception; it
is modelled branch by branch. `executionId` is the fresh uuid, `secCheck`
the SecurityManager verdict, `initialShot` the screenshot taken before
parsing, `parseResult` the AIService response; `now` models `Date.now()`
during/after execution and `startTime` the value captured on entry. -/
def handleExecuteCommand (s : ControllerState) (sessionId executionId : String)
    (userInput : String)
    (secCheck : Except String (Bool × List String))
    (initialShot : Except String String)
    (parseResult : AIParseResponse)
    (execRes : Nat → Except String BrowserResponse)
    (shotRes : Nat → Except String String)
    (pageRes : Nat → Except String (String × String))
    (now startTime : Nat) : ExecOut :=
  match mapGet s.clientSessions sessionId, mapGet s.browserInstances sessionId with
  | some session, some browserState =>
    if browserState.status ≠ BrowserStatus.ready then
      handlerCatch s executionId [] []
        ("Browser not ready. Status: " ++ statusStr browserState.status) now startTime
    else match validateCommandInput userInput secCheck with
    | some err => handlerCatch s executionId [] [] err now startTime
    | none =>
      let ev0 := ServerEvent.commandProgress "parsing" 10 (some "AI 명령어 파싱 중...")
      match initialShot with
      | .error e => handlerCatch s executionId [ev0] [] e now startTime
      | .ok _ =>
        if parseResult.success = false ∨ parseResult.commands = none then
          handlerCatch s executionId [ev0] []
            (parseResult.error.getD "Command parsing failed") now startTime
        else
          handlerRun s sessionId executionId userInput session
            (parseResult.commands.getD []) execRes shotRes pageRes now startTime
  | _, _ =>
    handlerCatch s executionId [] [] "Session or browser instance not found" now startTime

/-- Output of `handleDisconnection`: the new state, the execution records
whose `status` field was set to `cancelled` before removal, and the
sessions for which `browserService.cleanup()` was invoked. The handler
emits no socket events. -/
structure DisconnectOut where
  state : ControllerState
  cancelled : List ExecutionContext
  cleanupCalls : List String
  events : List ServerEvent
  deriving DecidableEq

/-- `handleDisconnection`: remove the session (decrementing the active
connection counter only when it was present), remove the browser instance
(triggering best-effort engine cleanup), and cancel-and-remove every
execution of the session. The whole body is wrapped in try/catch and
performs no emits. -/
def handleDisconnection (s : ControllerState) (sessionId : String) : DisconnectOut :=
  let (sessions', stats') :=
    match mapGet s.clientSessions sessionId with
    | some _ =>
        (mapDelete s.clientSessions sessionId,
          { s.connectionStats with
              activeConnections := s.connectionStats.activeConnections - 1 })
    | none => (s.clientSessions, s.connectionStats)
  let (instances', cleanupCalls) :=
    match mapGet s.browserInstances sessionId with
    | some _ => (mapDelete s.browserInstances sessionId, [sessionId])
    | none => (s.browserInstances, ([] : List String))
  let cancelled := (s.executionQueue.filter
      (fun p => p.2.sessionId = sessionId)).map
    (fun p => { p.2 with status := ExecStatus.cancelled })
  let queue' := s.executionQueue.filter (fun p => ¬ p.2.sessionId = sessionId)
  ⟨{ clientSessions := sessions', browserInstances := instances',
      executionQueue := queue', connectionStats := stats' },
    cancelled, cleanupCalls, []⟩

/-- `handleResetBrowser`: the `reset_browser` handler. With no instance the
try block throws and the catch emits an `error` event. Otherwise the status
is first set to `initializing`; if the engine reset (`resetRes`) succeeds
the instance becomes `ready` with page metadata and error state discarded.
There is no check of the previous status. -/
def handleResetBrowser (s : ControllerState) (sessionId : String)
    (resetRes : Except String Unit) (now : Nat) :
    ControllerState × List ServerEvent :=
  match mapGet s.browserInstances sessionId with
  | none =>
    (s, [ServerEvent.errorEvent "Browser reset failed" (some "BROWSER_INIT_FAILED")
      (some "Browser instance not found")])
  | some bs =>
    let bs1 := { bs with status := BrowserStatus.initializing }
    let s1 := { s with browserInstances := mapSet s.browserInstances sessionId bs1 }
    match resetRes with
    | .error e =>
      (s1, [ServerEvent.browserStatus "initializing",
        ServerEvent.errorEvent "Browser reset failed" (some "BROWSER_INIT_FAILED") (some e)])
    | .ok _ =>
      let bs2 := { bs1 with
                   status := BrowserStatus.ready,
                   currentUrl := none,
                   pageTitle := none,
                   lastActivity := now,
                   error := none }
      ({ s1 with browserInstances := mapSet s1.browserInstances sessionId bs2 },
        [ServerEvent.browserStatus "initializing", ServerEvent.browserStatus "ready"])

/-- `cleanupInactiveSessions` (the idle-session sweep, run every 5 minutes):
deletes sessions whose inactivity exceeds the configured timeout. It touches
no other table and invokes no browser cleanup; the second component lists
the `browserService.cleanup()` calls it makes (none). -/
def cleanupInactiveSessions (s : ControllerState) (now timeout : Nat) :
    ControllerState × List String :=
  ({ s with
      clientSessions := s.clientSessions.filter
        (fun p => ¬ (now - p.2.lastActivity > timeout)) }, [])

/-! ### SecurityManager rate limiting -/

/-- The static maps of `SecurityManager` touched by `checkRateLimit`. -/
structure SecurityState where
  lastRequestTime : List (String × Nat)
  requestCount : List (String × Nat)
  suspiciousActivities : List (String × Nat)
  blockedIPs : List String
  deriving DecidableEq

/-- `SecurityManager.blockIP` (a JS `Set.add`). -/
def blockIP (st : SecurityState) (ip : String) : SecurityState :=
  { st with blockedIPs :=
      if ip ∈ st.blockedIPs then st.blockedIPs else st.blockedIPs ++ [ip] }

/-- `SecurityManager.addSuspiciousActivity`: bump the per-client counter and
block the IP once the previous count reached 10. -/
def addSuspiciousActivity (st : SecurityState) (clientId : String) : SecurityState :=
  let count := (mapGet st.suspiciousActivities clientId).getD 0
  let st' := { st with
    suspiciousActivities := mapSet st.suspiciousActivities clientId (count + 1) }
  if count ≥ 10 then blockIP st' clientId else st'

/-- `SecurityManager.checkRateLimit(clientId, maxRequests, windowMs)` at
time `now` (`Date.now()`). Missing map entries default to 0. When the gap
since the last recorded request exceeds the window the counter resets to 1
and the call is allowed; otherwise the counter is bumped and the call is
rejected when the *previous* count had already reached `maxRequests`. -/
def checkRateLimit (st : SecurityState) (clientId : String)
    (maxRequests windowMs now : Nat) : Bool × SecurityState :=
  let lastRequest := (mapGet st.lastRequestTime clientId).getD 0
  let requestCount := (mapGet st.requestCount clientId).getD 0
  if now - lastRequest > windowMs then
    (true, { st with
              requestCount := mapSet st.requestCount clientId 1,
              lastRequestTime := mapSet st.lastRequestTime clientId now })
  else
    let st' := { st with
                 requestCount := mapSet st.requestCount clientId (requestCount + 1),
                 lastRequestTime := mapSet st.lastRequestTime clientId now }
    if requestCount ≥ maxRequests then
      (false, addSuspiciousActivity st' clientId)
    else
      (true, st')

/-- Run a sequence of `checkRateLimit` calls for one client at the given
times, collecting the returned verdicts. -/
def runCalls (st : SecurityState) (clientId : String) (maxRequests windowMs : Nat) :
    List Nat → List Bool
  | [] => []
  | t :: ts =>
    let r := checkRateLimit st clientId maxRequests windowMs t
    r.1 :: runCalls r.2 clientId maxRequests windowMs ts

/-- Consecutive calls at these times all fall inside the rate-limit window
of their predecessor (`tprev` is the time of the call before the first). -/
def gapsOk (windowMs : Nat) : Nat → List Nat → Prop
  | _, [] => True
  | tprev, t :: ts => t - tprev ≤ windowMs ∧ gapsOk windowMs t ts

/-! ### Observations on emitted events -/

/-- Whether an event is a terminal `command_result`. -/
def isCommandResult : ServerEvent → Bool
  | .commandResult _ _ _ _ => true
  | _ => false

/-- The progress percentages carried by the `command_progress` events of an
event list, in emission order. -/
def progressValues (evs : List ServerEvent) : List Nat :=
  evs.filterMap (fun e => match e with
    | .commandProgress _ p _ => some p
    | _ => none)

theorem progressValues_append (a b : List ServerEvent) :
    progressValues (a ++ b) = progressValues a ++ progressValues b := by
  simp [progressValues]

/-! ### Loop lemmas -/

theorem range'_cons (s n : Nat) :
    List.range' s (n + 1) = s :: List.range' (s + 1) n := rfl

theorem execLoop_no_result (total : Nat) (execRes : Nat → Except String BrowserResponse)
    (shotRes : Nat → Except String String)
    (pageRes : Nat → Except String (String × String)) (now : Nat) :
    ∀ (cmds : List BrowserCommand) (i : Nat) (bs : BrowserInstanceState),
      ∀ e ∈ (execLoop total execRes shotRes pageRes now cmds i bs).events,
        isCommandResult e = false := by
  intro cmds
  induction cmds with
  | nil => intro i bs e he; simp [execLoop] at he
  | cons c rest ih =>
    intro i bs e he
    simp only [execLoop] at he
    cases hex : execRes i with
    | error msg => simp [hex] at he; simp [he, isCommandResult]
    | ok r =>
      simp only [hex] at he
      by_cases hs : r.success = false
      · simp [hs] at he; simp [he, isCommandResult]
      · simp only [hs, if_false] at he
        by_cases hm : isMajorAction c.action
        · cases hsh : shotRes i with
          | error msg => simp [hm, hsh] at he; simp [he, isCommandResult]
          | ok v =>
            simp [hm, hsh, List.mem_cons, List.mem_append] at he
            rcases he with he | he | he
            · simp [he, isCommandResult]
            · simp [he, isCommandResult]
            · exact ih (i + 1) _ e he
        · simp [hm, List.mem_cons] at he
          rcases he with he | he
          · simp [he, isCommandResult]
          · exact ih (i + 1) _ e he

theorem execLoop_progressValues (total : Nat)
    (execRes : Nat → Except String BrowserResponse)
    (shotRes : Nat → Except String String)
    (pageRes : Nat → Except String (String × String)) (now : Nat) :
    ∀ (cmds : List BrowserCommand) (i : Nat) (bs : BrowserInstanceState),
      ∃ k, k ≤ cmds.length ∧
        progressValues (execLoop total execRes shotRes pageRes now cmds i bs).events
          = (List.range' i k).map (fun m => progressPercent m total) := by
  intro cmds
  induction cmds with
  | nil =>
    intro i bs
    exact ⟨0, Nat.zero_le _, by simp [execLoop, progressValues]⟩
  | cons c rest ih =>
    intro i bs
    simp only [execLoop]
    cases hex : execRes i with
    | error msg =>
      exact ⟨1, by simp, by simp [progressValues, List.range']⟩
    | ok r =>
      by_cases hs : r.success = false
      · exact ⟨1, by simp, by simp [hs, progressValues, List.range']⟩
      · simp only [hs, if_false]
        by_cases hm : isMajorAction c.action
        · cases hsh : shotRes i with
          | error msg =>
            exact ⟨1, by simp, by simp [hm, hsh, progressValues, List.range']⟩
          | ok v =>
            obtain ⟨k, hk, hvals⟩ := ih (i + 1)
              (updateBrowserState bs (pageRes i) now)
            refine ⟨k + 1, by simpa using Nat.succ_le_succ hk, ?_⟩
            simp only [hm, hsh, range'_cons, List.map_cons]
            simp [progressValues] at hvals ⊢
            exact hvals
        · obtain ⟨k, hk, hvals⟩ := ih (i + 1)
            (updateBrowserState bs (pageRes i) now)
          refine ⟨k + 1, by simpa using Nat.succ_le_succ hk, ?_⟩
          simp only [hm, range'_cons, List.map_cons]
          simp [progressValues] at hvals ⊢
          exact hvals

theorem execLoop_success (total : Nat)
    (execRes : Nat → Except String BrowserResponse)
    (shotRes : Nat → Except String String)
    (pageRes : Nat → Except String (String × String)) (now : Nat)
    (hex : ∀ i, ∃ r, execRes i = .ok r ∧ r.success = true)
    (hshot : ∀ i, ∃ v, shotRes i = .ok v) :
    ∀ (cmds : List BrowserCommand) (i : Nat) (bs : BrowserInstanceState),
      (execLoop total execRes shotRes pageRes now cmds i bs).thrown = none ∧
      progressValues (execLoop total execRes shotRes pageRes now cmds i bs).events
        = (List.range' i cmds.length).map (fun m => progressPercent m total) ∧
      (execLoop total execRes shotRes pageRes now cmds i bs).calls
        = List.range' i cmds.length := by
  intro cmds
  induction cmds with
  | nil => intro i bs; refine ⟨rfl, ?_, rfl⟩; simp [execLoop, progressValues]
  | cons c rest ih =>
    intro i bs
    obtain ⟨r, hr, hrs⟩ := hex i
    have hs : ¬ r.success = false := by simp [hrs]
    simp only [execLoop, hr, hs, if_false]
    by_cases hm : isMajorAction c.action
    · obtain ⟨v, hv⟩ := hshot i
      obtain ⟨ht, hp, hc⟩ := ih (i + 1) (updateBrowserState bs (pageRes i) now)
      refine ⟨by simpa [hm, hv] using ht, ?_, ?_⟩
      · simp only [hm, hv, List.length_cons, range'_cons, List.map_cons]
        simp [progressValues] at hp ⊢
        exact hp
      · simp only [hm, hv, List.length_cons, range'_cons]
        simpa using hc
    · obtain ⟨ht, hp, hc⟩ := ih (i + 1) (updateBrowserState bs (pageRes i) now)
      refine ⟨by simpa [hm] using ht, ?_, ?_⟩
      · simp only [hm, List.length_cons, range'_cons, List.map_cons]
        simp [progressValues] at hp ⊢
        exact hp
      · simp only [hm, List.length_cons, range'_cons]
        simpa using hc

theorem execLoop_fail (total : Nat)
    (execRes : Nat → Except String BrowserResponse)
    (shotRes : Nat → Except String String)
    (pageRes : Nat → Except String (String × String)) (now : Nat)
    (failResp : BrowserResponse)
    (hshot : ∀ i, ∃ v, shotRes i = .ok v) :
    ∀ (j : Nat) (cmds : List BrowserCommand) (i : Nat) (bs : BrowserInstanceState),
      j < cmds.length →
      (∀ m, m < j → ∃ r, execRes (i + m) = .ok r ∧ r.success = true) →
      execRes (i + j) = .ok failResp →
      failResp.success = false →
      (execLoop total execRes shotRes pageRes now cmds i bs).thrown
          = some (failResp.error.getD "Command execution failed") ∧
      (execLoop total execRes shotRes pageRes now cmds i bs).calls
          = List.range' i (j + 1) ∧
      ∃ pre, (execLoop total execRes shotRes pageRes now cmds i bs).results
            = pre ++ [failResp] ∧
          pre.length = j ∧ ∀ r ∈ pre, r.success = true := by
  intro j
  induction j with
  | zero =>
    intro cmds i bs hlen hok hfail hfs
    cases cmds with
    | nil => simp at hlen
    | cons c rest =>
      have hfail' : execRes i = .ok failResp := by simpa using hfail
      refine ⟨?_, ?_, ⟨[], ?_, rfl, by simp⟩⟩ <;>
        simp [execLoop, hfail', hfs, List.range']
  | succ j ih =>
    intro cmds i bs hlen hok hfail hfs
    cases cmds with
    | nil => simp at hlen
    | cons c rest =>
      obtain ⟨r, hr, hrs⟩ := hok 0 (Nat.succ_pos j)
      have hr' : execRes i = .ok r := by simpa using hr
      have hs : ¬ r.success = false := by simp [hrs]
      simp only [execLoop, hr', hs, if_false]
      have hok' : ∀ m, m < j → ∃ r', execRes (i + 1 + m) = .ok r' ∧ r'.success = true := by
        intro m hm
        have := hok (m + 1) (Nat.succ_lt_succ hm)
        simpa [Nat.add_comm, Nat.add_assoc, Nat.add_left_comm] using this
      have hfail'' : execRes (i + 1 + j) = .ok failResp := by
        simpa [Nat.add_comm, Nat.add_assoc, Nat.add_left_comm] using hfail
      have hlen' : j < rest.length := Nat.lt_of_succ_lt_succ (by simpa using hlen)
      by_cases hm : isMajorAction c.action
      · obtain ⟨v, hv⟩ := hshot i
        obtain ⟨ht, hc, pre, hres, hprelen, hpre⟩ :=
          ih rest (i + 1) (updateBrowserState bs (pageRes i) now) hlen' hok' hfail'' hfs
        refine ⟨by simpa [hm, hv] using ht, ?_, ?_⟩
        · simp only [hm, hv, range'_cons]
          simpa using hc
        · refine ⟨r :: pre, ?_, by simp [hprelen], ?_⟩
          · simp [hm, hv, hres]
          · intro x hx
            rcases List.mem_cons.mp hx with hx | hx
            · simpa [hx] using hrs
            · exact hpre x hx
      · obtain ⟨ht, hc, pre, hres, hprelen, hpre⟩ :=
          ih rest (i + 1) (updateBrowserState bs (pageRes i) now) hlen' hok' hfail'' hfs
        refine ⟨by simpa [hm] using ht, ?_, ?_⟩
        · simp only [hm, range'_cons]
          simpa using hc
        · refine ⟨r :: pre, ?_, by simp [hprelen], ?_⟩
          · simp [hm, hres]
          · intro x hx
            rcases List.mem_cons.mp hx with hx | hx
            · simpa [hx] using hrs
            · exact hpre x hx

theorem progressPercent_mono (n : Nat) {i j : Nat} (h : i ≤ j) :
    progressPercent i n ≤ progressPercent j n := by
  have h1 : 160 * (i + 1) + n ≤ 160 * (j + 1) + n := by omega
  have h2 : (160 * (i + 1) + n) / (2 * n) ≤ (160 * (j + 1) + n) / (2 * n) :=
    Nat.div_le_div_right h1
  unfold progressPercent
  exact Nat.add_le_add_right h2 20

theorem progressPercent_last (n : Nat) (h : 0 < n) :
    progressPercent (n - 1) n = 100 := by
  unfold progressPercent
  have h1 : 160 * (n - 1 + 1) + n = 161 * n := by omega
  rw [h1]
  have h2 : 161 * n / (2 * n) = 80 := by
    apply Nat.div_eq_of_lt_le <;> omega
  rw [h2]

theorem progressPercent_ge_20 (i n : Nat) : 20 ≤ progressPercent i n := by
  unfold progressPercent
  exact Nat.le_add_left 20 _

/-- The full progress sequence of one execution — the parsing event at 10,
the per-command percentages for `k` dispatched commands out of `n`, and
optionally the final 100 — is monotonically non-decreasing. -/
theorem chain'_progress (k n : Nat) (hk : k ≤ n) (tail : List Nat)
    (htail : tail = [] ∨ tail = [100]) :
    List.Chain' (· ≤ ·)
      (10 :: ((List.range' 0 k).map (fun m => progressPercent m n) ++ tail)) := by
  rw [List.chain'_iff_pairwise]
  have hmemL : ∀ x ∈ (List.range' 0 k).map (fun m => progressPercent m n),
      20 ≤ x ∧ x ≤ 100 := by
    intro x hx
    obtain ⟨m, hm, rfl⟩ := List.mem_map.mp hx
    have hmk : m < k := by
      have := List.mem_range'_1.mp hm
      omega
    refine ⟨progressPercent_ge_20 m n, ?_⟩
    have h1 : m ≤ n - 1 := by omega
    have h2 := progressPercent_mono n h1
    have h3 := progressPercent_last n (by omega)
    omega
  refine List.pairwise_cons.mpr ⟨?_, ?_⟩
  · intro x hx
    rcases List.mem_append.mp hx with hx | hx
    · have := (hmemL x hx).1
      omega
    · rcases htail with rfl | rfl
      · simp at hx
      · simp at hx
        omega
  · refine List.pairwise_append.mpr ⟨?_, ?_, ?_⟩
    · refine List.pairwise_map.mpr ?_
      have hpw := List.pairwise_lt_range' 0 k
      exact hpw.imp (fun h => progressPercent_mono n (Nat.le_of_lt h))
    · rcases htail with rfl | rfl <;> simp
    · intro x hx y hy
      rcases htail with rfl | rfl
      · simp at hy
      · simp at hy
        rw [hy]
        exact (hmemL x hx).2

theorem execLoop_bs (total : Nat)
    (execRes : Nat → Except String BrowserResponse)
    (shotRes : Nat → Except String String)
    (pageRes : Nat → Except String (String × String)) (now : Nat) :
    ∀ (cmds : List BrowserCommand) (i : Nat) (bs : BrowserInstanceState),
      (execLoop total execRes shotRes pageRes now cmds i bs).bs.status = bs.status ∧
      (execLoop total execRes shotRes pageRes now cmds i bs).bs.currentCommand
        = bs.currentCommand := by
  intro cmds
  induction cmds with
  | nil => intro i bs; exact ⟨rfl, rfl⟩
  | cons c rest ih =>
    intro i bs
    simp only [execLoop]
    cases hex : execRes i with
    | error msg => exact ⟨rfl, rfl⟩
    | ok r =>
      by_cases hs : r.success = false
      · simp [hs]
      · simp only [hs, if_false]
        have hupd : ∀ page, (updateBrowserState bs page now).status = bs.status ∧
            (updateBrowserState bs page now).currentCommand = bs.currentCommand := by
          intro page
          cases page with
          | error e => exact ⟨rfl, rfl⟩
          | ok p => cases p; exact ⟨rfl, rfl⟩
        by_cases hm : isMajorAction c.action
        · cases hsh : shotRes i with
          | error msg => simp [hm, hsh]
          | ok v =>
            obtain ⟨h1, h2⟩ := ih (i + 1) (updateBrowserState bs (pageRes i) now)
            obtain ⟨h3, h4⟩ := hupd (pageRes i)
            exact ⟨by simp [hm, hsh]; rw [h1, h3], by simp [hm, hsh]; rw [h2, h4]⟩
        · obtain ⟨h1, h2⟩ := ih (i + 1) (updateBrowserState bs (pageRes i) now)
          obtain ⟨h3, h4⟩ := hupd (pageRes i)
          exact ⟨by simp [hm]; rw [h1, h3], by simp [hm]; rw [h2, h4]⟩

/-! ### Lemmas about `executeCommands` -/

theorem executeCommands_events (s : ControllerState) (sessionId : String)
    (execution : ExecutionContext)
    (execRes : Nat → Except String BrowserResponse)
    (shotRes : Nat → Except String String)
    (pageRes : Nat → Except String (String × String)) (now : Nat) :
    ((executeCommands s sessionId execution execRes shotRes pageRes now).thrown.isSome
        = true →
      ∀ e ∈ (executeCommands s sessionId execution execRes shotRes pageRes now).events,
        isCommandResult e = false) ∧
    ((executeCommands s sessionId execution execRes shotRes pageRes now).thrown = none →
      ∃ es r, (executeCommands s sessionId execution execRes shotRes pageRes now).events
          = es ++ [r] ∧ isCommandResult r = true ∧
          ∀ e ∈ es, isCommandResult e = false) := by
  cases hbs : mapGet s.browserInstances sessionId with
  | none =>
    simp only [executeCommands, hbs]
    exact ⟨fun _ e he => by simp at he, fun h => by simp at h⟩
  | some bs0 =>
    simp only [executeCommands, hbs]
    have hnr := execLoop_no_result execution.commands.length execRes shotRes pageRes now
      execution.commands 0 (busyInstance bs0 execution)
    generalize hlo : execLoop execution.commands.length execRes shotRes pageRes now
      execution.commands 0 (busyInstance bs0 execution) = lo at hnr ⊢
    cases hth : lo.thrown with
    | some msg =>
      rw [executeCommandsFinish_some _ _ _ _ _ _ hth]
      exact ⟨fun _ e he => hnr e he, fun h => by simp at h⟩
    | none =>
      rw [executeCommandsFinish_none _ _ _ _ _ hth]
      refine ⟨fun h => by simp at h, fun _ => ?_⟩
      refine ⟨lo.events
          ++ [ServerEvent.commandProgress "completed" 100 (some "실행 완료")],
        ServerEvent.commandResult true (some (execution.results ++ lo.results)) none
          (now - execution.startTime), by simp, rfl, ?_⟩
      intro e he
      rcases List.mem_append.mp he with he | he
      · exact hnr e he
      · simp at he
        rw [he]
        rfl

theorem executeCommands_progressValues (s : ControllerState) (sessionId : String)
    (execution : ExecutionContext)
    (execRes : Nat → Except String BrowserResponse)
    (shotRes : Nat → Except String String)
    (pageRes : Nat → Except String (String × String)) (now : Nat) :
    ∃ k, k ≤ execution.commands.length ∧
      (progressValues (executeCommands s sessionId execution execRes shotRes pageRes
            now).events
          = (List.range' 0 k).map
            (fun m => progressPercent m execution.commands.length) ∨
       progressValues (executeCommands s sessionId execution execRes shotRes pageRes
            now).events
          = (List.range' 0 k).map
            (fun m => progressPercent m execution.commands.length) ++ [100]) := by
  cases hbs : mapGet s.browserInstances sessionId with
  | none =>
    simp only [executeCommands, hbs]
    exact ⟨0, Nat.zero_le _, Or.inl (by simp [progressValues])⟩
  | some bs0 =>
    simp only [executeCommands, hbs]
    obtain ⟨k, hk, hvals⟩ := execLoop_progressValues execution.commands.length execRes
      shotRes pageRes now execution.commands 0 (busyInstance bs0 execution)
    generalize hlo : execLoop execution.commands.length execRes shotRes pageRes now
      execution.commands 0 (busyInstance bs0 execution) = lo at hvals ⊢
    cases hth : lo.thrown with
    | some msg =>
      rw [executeCommandsFinish_some _ _ _ _ _ _ hth]
      exact ⟨k, hk, Or.inl hvals⟩
    | none =>
      rw [executeCommandsFinish_none _ _ _ _ _ hth]
      refine ⟨k, hk, Or.inr ?_⟩
      rw [progressValues_append, hvals]
      simp [progressValues]

theorem executeCommands_success (s : ControllerState) (sessionId : String)
    (execution : ExecutionContext)
    (execRes : Nat → Except String BrowserResponse)
    (shotRes : Nat → Except String String)
    (pageRes : Nat → Except String (String × String)) (now : Nat)
    (bs0 : BrowserInstanceState)
    (hinst : mapGet s.browserInstances sessionId = some bs0)
    (hex : ∀ i, ∃ r, execRes i = .ok r ∧ r.success = true)
    (hshot : ∀ i, ∃ v, shotRes i = .ok v) :
    (executeCommands s sessionId execution execRes shotRes pageRes now).thrown = none ∧
    progressValues
        (executeCommands s sessionId execution execRes shotRes pageRes now).events
      = (List.range' 0 execution.commands.length).map
          (fun m => progressPercent m execution.commands.length) ++ [100] ∧
    (executeCommands s sessionId execution execRes shotRes pageRes now).calls
      = List.range' 0 execution.commands.length := by
  obtain ⟨ht, hp, hc⟩ := execLoop_success execution.commands.length execRes shotRes
    pageRes now hex hshot execution.commands 0 (busyInstance bs0 execution)
  simp only [executeCommands, hinst]
  rw [executeCommandsFinish_none _ _ _ _ _ ht]
  refine ⟨rfl, ?_, hc⟩
  rw [progressValues_append, hp]
  simp [progressValues]

theorem executeCommands_fail (s : ControllerState) (sessionId : String)
    (execution : ExecutionContext)
    (execRes : Nat → Except String BrowserResponse)
    (shotRes : Nat → Except String String)
    (pageRes : Nat → Except String (String × String)) (now : Nat)
    (bs0 : BrowserInstanceState) (j : Nat) (failResp : BrowserResponse)
    (hinst : mapGet s.browserInstances sessionId = some bs0)
    (hshot : ∀ i, ∃ v, shotRes i = .ok v)
    (hlen : j < execution.commands.length)
    (hok : ∀ m, m < j → ∃ r, execRes m = .ok r ∧ r.success = true)
    (hfail : execRes j = .ok failResp)
    (hfs : failResp.success = false) :
    (executeCommands s sessionId execution execRes shotRes pageRes now).thrown
        = some (failResp.error.getD "Command execution failed") ∧
    (executeCommands s sessionId execution execRes shotRes pageRes now).calls
        = List.range' 0 (j + 1) ∧
    ∀ e ∈ (executeCommands s sessionId execution execRes shotRes pageRes now).events,
      isCommandResult e = false := by
  have hnr := execLoop_no_result execution.commands.length execRes shotRes pageRes now
    execution.commands 0 (busyInstance bs0 execution)
  obtain ⟨ht, hc, _, _, _, _⟩ := execLoop_fail execution.commands.length execRes shotRes
    pageRes now failResp hshot j execution.commands 0 (busyInstance bs0 execution) hlen
    (fun m hm => by simpa using hok m hm) (by simpa using hfail) hfs
  simp only [executeCommands, hinst]
  rw [executeCommandsFinish_some _ _ _ _ _ _ ht]
  exact ⟨rfl, hc, fun e he => hnr e he⟩

/-! ### Lemmas about the submission handler -/

theorem handlerCatch_shape (s : ControllerState) (executionId : String)
    (events : List ServerEvent) (calls : List Nat) (msg : String)
    (now startTime : Nat)
    (h : ∀ e ∈ events, isCommandResult e = false) :
    ∃ es r, (handlerCatch s executionId events calls msg now startTime).events
        = es ++ [r] ∧ isCommandResult r = true ∧
        ∀ e ∈ es, isCommandResult e = false :=
  ⟨events, ServerEvent.commandResult false none (some msg) (now - startTime),
    by simp [handlerCatch], rfl, h⟩

theorem handlerFinish_shape (sessionId executionId : String) (session : ClientSession)
    (now startTime : Nat) (r : ExecOut)
    (h1 : r.thrown.isSome = true → ∀ e ∈ r.events, isCommandResult e = false)
    (h2 : r.thrown = none → ∃ es rr, r.events = es ++ [rr] ∧ isCommandResult rr = true ∧
      ∀ e ∈ es, isCommandResult e = false) :
    ∃ es rr, (handlerFinish sessionId executionId session now startTime r).events
        = es ++ [rr] ∧ isCommandResult rr = true ∧
        ∀ e ∈ es, isCommandResult e = false := by
  cases hth : r.thrown with
  | some msg =>
    rw [handlerFinish_some _ _ _ _ _ _ _ hth]
    refine handlerCatch_shape _ _ _ _ _ _ _ ?_
    intro e he
    rcases List.mem_cons.mp he with he | he
    · rw [he]; rfl
    · exact h1 (by simp [hth]) e he
  | none =>
    rw [handlerFinish_none _ _ _ _ _ _ hth]
    obtain ⟨es, rr, hev, hrr, hes⟩ := h2 hth
    refine ⟨ServerEvent.commandProgress "parsing" 10 (some "AI 명령어 파싱 중...") :: es,
      rr, ?_, hrr, ?_⟩
    · simp [hev]
    · intro e he
      rcases List.mem_cons.mp he with he | he
      · rw [he]; rfl
      · exact hes e he

theorem handlerRun_shape (s : ControllerState)
    (sessionId executionId userInput : String) (session : ClientSession)
    (cmds : List BrowserCommand)
    (execRes : Nat → Except String BrowserResponse)
    (shotRes : Nat → Except String String)
    (pageRes : Nat → Except String (String × String)) (now startTime : Nat) :
    ∃ es rr, (handlerRun s sessionId executionId userInput session cmds execRes shotRes
        pageRes now startTime).events = es ++ [rr] ∧ isCommandResult rr = true ∧
      ∀ e ∈ es, isCommandResult e = false := by
  simp only [handlerRun]
  exact handlerFinish_shape _ _ _ _ _ _
    (executeCommands_events _ _ _ _ _ _ _).1 (executeCommands_events _ _ _ _ _ _ _).2

theorem handler_shape (s : ControllerState) (sessionId executionId userInput : String)
    (secCheck : Except String (Bool × List String))
    (initialShot : Except String String) (parseResult : AIParseResponse)
    (execRes : Nat → Except String BrowserResponse)
    (shotRes : Nat → Except String String)
    (pageRes : Nat → Except String (String × String)) (now startTime : Nat) :
    ∃ es r, (handleExecuteCommand s sessionId executionId userInput secCheck initialShot
        parseResult execRes shotRes pageRes now startTime).events = es ++ [r] ∧
      isCommandResult r = true ∧ ∀ e ∈ es, isCommandResult e = false := by
  cases hses : mapGet s.clientSessions sessionId with
  | none =>
    cases hbs : mapGet s.browserInstances sessionId with
    | none =>
      simp only [handleExecuteCommand, hses, hbs]
      exact handlerCatch_shape _ _ _ _ _ _ _ (by intro e he; simp at he)
    | some bs =>
      simp only [handleExecuteCommand, hses, hbs]
      exact handlerCatch_shape _ _ _ _ _ _ _ (by intro e he; simp at he)
  | some session =>
    cases hbs : mapGet s.browserInstances sessionId with
    | none =>
      simp only [handleExecuteCommand, hses, hbs]
      exact handlerCatch_shape _ _ _ _ _ _ _ (by intro e he; simp at he)
    | some bs =>
      simp only [handleExecuteCommand, hses, hbs]
      by_cases hst : bs.status = BrowserStatus.ready
      · simp only [hst, ne_eq, not_true_eq_false, if_false, reduceIte]
        cases hval : validateCommandInput userInput secCheck with
        | some err =>
          exact handlerCatch_shape _ _ _ _ _ _ _ (by intro e he; simp at he)
        | none =>
          cases initialShot with
          | error e0 =>
            exact handlerCatch_shape _ _ _ _ _ _ _
              (by intro e he; simp at he; rw [he]; rfl)
          | ok v =>
            by_cases hp : parseResult.success = false ∨ parseResult.commands = none
            · rw [if_pos hp]
              exact handlerCatch_shape _ _ _ _ _ _ _
                (by intro e he; simp at he; rw [he]; rfl)
            · rw [if_neg hp]
              exact handlerRun_shape _ _ _ _ _ _ _ _ _ _ _
      · rw [if_pos (by simp [hst])]
        exact handlerCatch_shape _ _ _ _ _ _ _ (by intro e he; simp at he)

theorem handlerRun_progress (s : ControllerState)
    (sessionId executionId userInput : String) (session : ClientSession)
    (cmds : List BrowserCommand)
    (execRes : Nat → Except String BrowserResponse)
    (shotRes : Nat → Except String String)
    (pageRes : Nat → Except String (String × String)) (now startTime : Nat) :
    ∃ k tail, k ≤ cmds.length ∧ (tail = [] ∨ tail = [100]) ∧
      progressValues (handlerRun s sessionId executionId userInput session cmds execRes
          shotRes pageRes now startTime).events
        = 10 :: ((List.range' 0 k).map (fun m => progressPercent m cmds.length)
            ++ tail) := by
  simp only [handlerRun]
  obtain ⟨k, hk, hdisj⟩ := executeCommands_progressValues
    { s with
      executionQueue := mapSet s.executionQueue executionId
          (mkExecution sessionId executionId userInput cmds startTime) }
    sessionId (mkExecution sessionId executionId userInput cmds startTime)
    execRes shotRes pageRes now
  cases hth : (executeCommands
      { s with
        executionQueue := mapSet s.executionQueue executionId
            (mkExecution sessionId executionId userInput cmds startTime) }
      sessionId (mkExecution sessionId executionId userInput cmds startTime)
      execRes shotRes pageRes now).thrown with
  | some msg =>
    rw [handlerFinish_some _ _ _ _ _ _ _ hth]
    rcases hdisj with h | h
    · refine ⟨k, [], hk, Or.inl rfl, ?_⟩
      simp only [handlerCatch, progressValues, mkExecution] at h ⊢
      simp [h]
    · refine ⟨k, [100], hk, Or.inr rfl, ?_⟩
      simp only [handlerCatch, progressValues, mkExecution] at h ⊢
      simp [h]
  | none =>
    rw [handlerFinish_none _ _ _ _ _ _ hth]
    rcases hdisj with h | h
    · refine ⟨k, [], hk, Or.inl rfl, ?_⟩
      simp only [progressValues, mkExecution] at h ⊢
      simp [h]
    · refine ⟨k, [100], hk, Or.inr rfl, ?_⟩
      simp only [progressValues, mkExecution] at h ⊢
      simp [h]

theorem handler_progress_shape (s : ControllerState)
    (sessionId executionId userInput : String)
    (secCheck : Except String (Bool × List String))
    (initialShot : Except String String) (parseResult : AIParseResponse)
    (execRes : Nat → Except String BrowserResponse)
    (shotRes : Nat → Except String String)
    (pageRes : Nat → Except String (String × String)) (now startTime : Nat) :
    progressValues (handleExecuteCommand s sessionId executionId userInput secCheck
        initialShot parseResult execRes shotRes pageRes now startTime).events = [] ∨
    progressValues (handleExecuteCommand s sessionId executionId userInput secCheck
        initialShot parseResult execRes shotRes pageRes now startTime).events = [10] ∨
    (∃ k tail, k ≤ (parseResult.commands.getD []).length ∧ (tail = [] ∨ tail = [100]) ∧
      progressValues (handleExecuteCommand s sessionId executionId userInput secCheck
          initialShot parseResult execRes shotRes pageRes now startTime).events
        = 10 :: ((List.range' 0 k).map
            (fun m => progressPercent m (parseResult.commands.getD []).length)
            ++ tail)) := by
  cases hses : mapGet s.clientSessions sessionId with
  | none =>
    cases hbs : mapGet s.browserInstances sessionId with
    | none =>
      simp only [handleExecuteCommand, hses, hbs]
      exact Or.inl (by simp [handlerCatch, progressValues])
    | some bs =>
      simp only [handleExecuteCommand, hses, hbs]
      exact Or.inl (by simp [handlerCatch, progressValues])
  | some session =>
    cases hbs : mapGet s.browserInstances sessionId with
    | none =>
      simp only [handleExecuteCommand, hses, hbs]
      exact Or.inl (by simp [handlerCatch, progressValues])
    | some bs =>
      simp only [handleExecuteCommand, hses, hbs]
      by_cases hst : bs.status = BrowserStatus.ready
      · simp only [hst, ne_eq, not_true_eq_false, if_false, reduceIte]
        cases hval : validateCommandInput userInput secCheck with
        | some err =>
          exact Or.inl (by simp [handlerCatch, progressValues])
        | none =>
          cases initialShot with
          | error e0 =>
            exact Or.inr (Or.inl (by simp [handlerCatch, progressValues]))
          | ok v =>
            by_cases hp : parseResult.success = false ∨ parseResult.commands = none
            · rw [if_pos hp]
              exact Or.inr (Or.inl (by simp [handlerCatch, progressValues]))
            · rw [if_neg hp]
              exact Or.inr (Or.inr (handlerRun_progress _ _ _ _ _ _ _ _ _ _ _))
      · rw [if_pos (by simp [hst])]
        exact Or.inl (by simp [handlerCatch, progressValues])

theorem handlerRun_success_progress (s : ControllerState)
    (sessionId executionId userInput : String) (session : ClientSession)
    (cmds : List BrowserCommand)
    (execRes : Nat → Except String BrowserResponse)
    (shotRes : Nat → Except String String)
    (pageRes : Nat → Except String (String × String)) (now startTime : Nat)
    (bs0 : BrowserInstanceState)
    (hinst : mapGet s.browserInstances sessionId = some bs0)
    (hex : ∀ i, ∃ r, execRes i = .ok r ∧ r.success = true)
    (hshot : ∀ i, ∃ v, shotRes i = .ok v) :
    progressValues (handlerRun s sessionId executionId userInput session cmds execRes
        shotRes pageRes now startTime).events
      = 10 :: ((List.range' 0 cmds.length).map
          (fun m => progressPercent m cmds.length) ++ [100]) := by
  simp only [handlerRun]
  obtain ⟨ht, hp, _⟩ := executeCommands_success
    { s with
      executionQueue := mapSet s.executionQueue executionId
          (mkExecution sessionId executionId userInput cmds startTime) }
    sessionId (mkExecution sessionId executionId userInput cmds startTime)
    execRes shotRes pageRes now bs0 hinst hex hshot
  rw [handlerFinish_none _ _ _ _ _ _ ht]
  simp only [progressValues, mkExecution] at hp ⊢
  simp [hp]

theorem handlerRun_fail (s : ControllerState)
    (sessionId executionId userInput : String) (session : ClientSession)
    (cmds : List BrowserCommand)
    (execRes : Nat → Except String BrowserResponse)
    (shotRes : Nat → Except String String)
    (pageRes : Nat → Except String (String × String)) (now startTime : Nat)
    (bs0 : BrowserInstanceState) (j : Nat) (failResp : BrowserResponse)
    (hinst : mapGet s.browserInstances sessionId = some bs0)
    (hshot : ∀ i, ∃ v, shotRes i = .ok v)
    (hlen : j < cmds.length)
    (hok : ∀ m, m < j → ∃ r, execRes m = .ok r ∧ r.success = true)
    (hfail : execRes j = .ok failResp)
    (hfs : failResp.success = false) :
    (handlerRun s sessionId executionId userInput session cmds execRes shotRes pageRes
        now startTime).events.filter (fun e => isCommandResult e)
      = [ServerEvent.commandResult false none
          (some (failResp.error.getD "Command execution failed")) (now - startTime)] ∧
    (handlerRun s sessionId executionId userInput session cmds execRes shotRes pageRes
        now startTime).calls = List.range' 0 (j + 1) := by
  simp only [handlerRun]
  obtain ⟨ht, hc, hnr⟩ := executeCommands_fail
    { s with
      executionQueue := mapSet s.executionQueue executionId
          (mkExecution sessionId executionId userInput cmds startTime) }
    sessionId (mkExecution sessionId executionId userInput cmds startTime)
    execRes shotRes pageRes now bs0 j failResp hinst hshot hlen hok hfail hfs
  rw [handlerFinish_some _ _ _ _ _ _ _ ht]
  constructor
  · simp only [handlerCatch, List.filter_append, List.filter_cons]
    have h0 : (List.filter (fun e => isCommandResult e)
        (executeCommands
          { s with
            executionQueue := mapSet s.executionQueue executionId
                (mkExecution sessionId executionId userInput cmds startTime) }
          sessionId (mkExecution sessionId executionId userInput cmds startTime)
          execRes shotRes pageRes now).events) = [] :=
      List.filter_eq_nil_iff.mpr (fun e he => by simp [hnr e he])
    have hev0 : isCommandResult
        (ServerEvent.commandProgress "parsing" 10 (some "AI 명령어 파싱 중...")) = false := rfl
    have hres : ∀ m t, isCommandResult
        (ServerEvent.commandResult false none (some m) t) = true := fun _ _ => rfl
    simp [hev0, hres, h0]
  · simpa [handlerCatch] using hc

/-! ### Lemmas about disconnection and the sweeps -/

theorem handleDisconnection_parts (s : ControllerState) (sessionId : String) :
    (handleDisconnection s sessionId).cancelled
      = (s.executionQueue.filter (fun p => p.2.sessionId = sessionId)).map
          (fun p => { p.2 with status := ExecStatus.cancelled }) ∧
    (handleDisconnection s sessionId).state.executionQueue
      = s.executionQueue.filter (fun p => ¬ p.2.sessionId = sessionId) ∧
    (handleDisconnection s sessionId).events = [] := by
  cases hses : mapGet s.clientSessions sessionId <;>
    cases hbs : mapGet s.browserInstances sessionId <;>
      simp [handleDisconnection, hses, hbs]

theorem handleDisconnection_instances_some (s : ControllerState) (sessionId : String)
    (bs : BrowserInstanceState)
    (hbs : mapGet s.browserInstances sessionId = some bs) :
    (handleDisconnection s sessionId).state.browserInstances
      = mapDelete s.browserInstances sessionId ∧
    (handleDisconnection s sessionId).cleanupCalls = [sessionId] := by
  cases hses : mapGet s.clientSessions sessionId <;>
    simp [handleDisconnection, hses, hbs]

theorem handleDisconnection_instances_none (s : ControllerState) (sessionId : String)
    (hbs : mapGet s.browserInstances sessionId = none) :
    (handleDisconnection s sessionId).state.browserInstances = s.browserInstances ∧
    (handleDisconnection s sessionId).cleanupCalls = [] := by
  cases hses : mapGet s.clientSessions sessionId <;>
    simp [handleDisconnection, hses, hbs]

theorem handleDisconnection_sessions_none (s : ControllerState) (sessionId : String)
    (hses : mapGet s.clientSessions sessionId = none) :
    (handleDisconnection s sessionId).state.clientSessions = s.clientSessions ∧
    (handleDisconnection s sessionId).state.connectionStats = s.connectionStats := by
  cases hbs : mapGet s.browserInstances sessionId <;>
    simp [handleDisconnection, hses, hbs]

theorem handleDisconnection_sessions_some (s : ControllerState) (sessionId : String)
    (sess : ClientSession)
    (hses : mapGet s.clientSessions sessionId = some sess) :
    (handleDisconnection s sessionId).state.clientSessions
      = mapDelete s.clientSessions sessionId := by
  cases hbs : mapGet s.browserInstances sessionId <;>
    simp [handleDisconnection, hses, hbs]

theorem mapGet_filter_delete {α : Type} (m : List (String × α)) (k : String) :
    mapGet (mapDelete m k) k = none := mapGet_mapDelete_self m k

/-! ### Concrete fixtures -/

/-- A connected client session (timestamps at 0). -/
def sessionA : ClientSession :=
  { id := "s1", socketId := "k1", clientIp := "127.0.0.1", connectedAt := 0,
    lastActivity := 0, commandCount := 0 }

/-- A ready browser instance for `sessionA`. -/
def instanceReady : BrowserInstanceState :=
  { id := "s1", socketId := "k1", status := BrowserStatus.ready, createdAt := 0,
    lastActivity := 0 }

/-- The same instance while a command is in flight. -/
def instanceBusy : BrowserInstanceState :=
  { instanceReady with
    status := BrowserStatus.busy,
    currentCommand := some { action := Action.navigate } }

/-- Controller state with one session and a ready instance. -/
def stateReady : ControllerState :=
  { clientSessions := [("s1", sessionA)],
    browserInstances := [("s1", instanceReady)],
    executionQueue := [], connectionStats := ⟨1, 1, 0, 0, 0⟩ }

/-- Controller state with one session and a busy instance. -/
def stateBusy : ControllerState :=
  { stateReady with browserInstances := [("s1", instanceBusy)] }

def cmdWait : BrowserCommand := { action := Action.wait }

def okResponse : BrowserResponse := { success := true }

def failBoom : BrowserResponse := { success := false, error := some "boom" }

/-- Browser-service oracle: command 0 succeeds, later commands fail. -/
def execResFailAt1 : Nat → Except String BrowserResponse :=
  fun i => if i = 0 then .ok okResponse else .ok failBoom

/-- Browser-service oracle: every command fails. -/
def execAllFail : Nat → Except String BrowserResponse := fun _ => .ok failBoom

/-- Browser-service oracle: every command succeeds. -/
def allOk : Nat → Except String BrowserResponse := fun _ => .ok okResponse

def shotOk : Nat → Except String String := fun _ => .ok "shot"

def pageOk : Nat → Except String (String × String) := fun _ => .ok ("url", "title")

/-- A running execution of `sessionA`. -/
def runningExec : ExecutionContext :=
  { id := "e9", sessionId := "s1", userInput := "go", commands := [cmdWait],
    currentIndex := 0, startTime := 0, results := [], status := ExecStatus.running }

/-- Busy state with `runningExec` in the execution queue. -/
def stateRunning : ControllerState :=
  { stateBusy with executionQueue := [("e9", runningExec)] }

/-! ### Claim C4 -/

/-- C4 counterexample: in `stateReady` the session "s1" has been idle for
longer than the timeout; the idle-session sweep removes the session entry
but leaves the browser-instance entry in place and triggers no
`browserService.cleanup()` call, so the browser instance entry outlives its
session entry — contradicting the claim that removal by the idle-session
sweep triggers teardown of the session's Resource. -/
theorem C4_counterexample :
    mapGet (cleanupInactiveSessions stateReady 1000000 1000).1.clientSessions "s1"
        = none ∧
    mapGet (cleanupInactiveSessions stateReady 1000000 1000).1.browserInstances "s1"
        = some instanceReady ∧
    (cleanupInactiveSessions stateReady 1000000 1000).2 = [] := by
  refine ⟨rfl, rfl, rfl⟩

/-- C4 (amended): Resource teardown is coupled to *disconnect* removal —
`handleDisconnection` deletes the browser-instance entry and invokes the
engine cleanup for the session — while the idle-session sweep
(`cleanupInactiveSessions`) removes only Session entries: it leaves the
browser-instance table unchanged and triggers no teardown, so a browser
instance entry can outlive its session entry. -/
theorem C4_teardown (s : ControllerState) (sessionId : String) (now timeout : Nat)
    (bs : BrowserInstanceState)
    (hinst : mapGet s.browserInstances sessionId = some bs) :
    ((handleDisconnection s sessionId).state.browserInstances
        = mapDelete s.browserInstances sessionId ∧
      (handleDisconnection s sessionId).cleanupCalls = [sessionId] ∧
      mapGet (handleDisconnection s sessionId).state.browserInstances sessionId
        = none) ∧
    ((cleanupInactiveSessions s now timeout).1.browserInstances
        = s.browserInstances ∧
      (cleanupInactiveSessions s now timeout).2 = []) := by
  obtain ⟨h1, h2⟩ := handleDisconnection_instances_some s sessionId bs hinst
  exact ⟨⟨h1, h2, by rw [h1]; exact mapGet_mapDelete_self _ _⟩, rfl, rfl⟩

/-- C4 witness at the concrete fixture. -/
theorem C4_teardown_witness :
    ((handleDisconnection stateReady "s1").state.browserInstances
        = mapDelete stateReady.browserInstances "s1" ∧
      (handleDisconnection stateReady "s1").cleanupCalls = ["s1"] ∧
      mapGet (handleDisconnection stateReady "s1").state.browserInstances "s1"
        = none) ∧
    ((cleanupInactiveSessions stateReady 1000000 1000).1.browserInstances
        = stateReady.browserInstances ∧
      (cleanupInactiveSessions stateReady 1000000 1000).2 = []) :=
  C4_teardown stateReady "s1" 1000000 1000 instanceReady rfl

/-! ### Claim C5 -/

/-- C5: when a session disconnects while an Execution of that session is
`running`, `handleDisconnection` sets that Execution's status to
`cancelled` (the cancelled record is collected), removes every execution of
the session from the active execution table, and emits no events (so no
event emission can raise an error). -/
theorem C5_cancel_on_disconnect (s : ControllerState) (sessionId key : String)
    (e : ExecutionContext)
    (hmem : (key, e) ∈ s.executionQueue) (hsid : e.sessionId = sessionId)
    (hrun : e.status = ExecStatus.running) :
    ({ e with status := ExecStatus.cancelled }
        ∈ (handleDisconnection s sessionId).cancelled) ∧
    (∀ p ∈ (handleDisconnection s sessionId).state.executionQueue,
      p.2.sessionId ≠ sessionId) ∧
    (handleDisconnection s sessionId).events = [] := by
  obtain ⟨hcanc, hqueue, hev⟩ := handleDisconnection_parts s sessionId
  refine ⟨?_, ?_, hev⟩
  · rw [hcanc]
    exact List.mem_map.mpr ⟨(key, e),
      List.mem_filter.mpr ⟨hmem, by simp [hsid]⟩, rfl⟩
  · intro p hp
    rw [hqueue] at hp
    have := List.mem_filter.mp hp
    simpa using this.2

/-- C5 witness: disconnecting `stateRunning` cancels `runningExec`. -/
theorem C5_cancel_witness :
    ({ runningExec with status := ExecStatus.cancelled }
        ∈ (handleDisconnection stateRunning "s1").cancelled) ∧
    (∀ p ∈ (handleDisconnection stateRunning "s1").state.executionQueue,
      p.2.sessionId ≠ "s1") ∧
    (handleDisconnection stateRunning "s1").events = [] :=
  C5_cancel_on_disconnect stateRunning "s1" "e9" runningExec (by simp [stateRunning])
    rfl rfl

/-! ### Claim C9 -/

/-- C9: disconnect cleanup is idempotent — a second `handleDisconnection`
for the same session id leaves the session, browser-instance and execution
tables and the connection statistics (in particular the active-connection
counter, so it is decremented at most once) exactly as the first call left
them, performs no further engine cleanup, cancels nothing, and raises no
error (the handler is total and emits nothing). -/
theorem C9_idempotent (s : ControllerState) (sessionId : String) :
    (handleDisconnection (handleDisconnection s sessionId).state
        sessionId).state.clientSessions
      = (handleDisconnection s sessionId).state.clientSessions ∧
    (handleDisconnection (handleDisconnection s sessionId).state
        sessionId).state.browserInstances
      = (handleDisconnection s sessionId).state.browserInstances ∧
    (handleDisconnection (handleDisconnection s sessionId).state
        sessionId).state.executionQueue
      = (handleDisconnection s sessionId).state.executionQueue ∧
    (handleDisconnection (handleDisconnection s sessionId).state
        sessionId).state.connectionStats
      = (handleDisconnection s sessionId).state.connectionStats ∧
    (handleDisconnection (handleDisconnection s sessionId).state
        sessionId).cleanupCalls = [] ∧
    (handleDisconnection (handleDisconnection s sessionId).state
        sessionId).cancelled = [] := by
  have hses1 : mapGet (handleDisconnection s sessionId).state.clientSessions
      sessionId = none := by
    cases hses : mapGet s.clientSessions sessionId with
    | none =>
      rw [(handleDisconnection_sessions_none s sessionId hses).1]
      exact hses
    | some sess =>
      rw [handleDisconnection_sessions_some s sessionId sess hses]
      exact mapGet_mapDelete_self _ _
  have hbs1 : mapGet (handleDisconnection s sessionId).state.browserInstances
      sessionId = none := by
    cases hbs : mapGet s.browserInstances sessionId with
    | none =>
      rw [(handleDisconnection_instances_none s sessionId hbs).1]
      exact hbs
    | some bs =>
      rw [(handleDisconnection_instances_some s sessionId bs hbs).1]
      exact mapGet_mapDelete_self _ _
  obtain ⟨hq1c, hq1, _⟩ := handleDisconnection_parts s sessionId
  obtain ⟨hq2c, hq2, _⟩ := handleDisconnection_parts
    (handleDisconnection s sessionId).state sessionId
  refine ⟨(handleDisconnection_sessions_none _ _ hses1).1,
    (handleDisconnection_instances_none _ _ hbs1).1, ?_,
    (handleDisconnection_sessions_none _ _ hses1).2,
    (handleDisconnection_instances_none _ _ hbs1).2, ?_⟩
  · rw [hq2, hq1]
    simp [List.filter_filter]
  · rw [hq2c, hq1]
    rw [List.filter_filter]
    have : ∀ p : String × ExecutionContext,
        (decide (p.2.sessionId = sessionId) &&
          decide ¬ (p.2.sessionId = sessionId)) = false := by
      intro p
      by_cases h : p.2.sessionId = sessionId <;> simp [h]
    simp only [this, List.filter_false, List.map_nil]

/-! ### Claim C2 -/

/-- C2: while an Execution is running for a session its browser instance is
`busy` (the handler marks it busy in the same synchronous step that inserts
the `running` Execution), so a second `execute_command` submitted during a
running Execution finds `status ≠ ready` and is rejected immediately with a
single busy-error `command_result`; the rejection dispatches no command to
the browser and leaves the browser-instance table, the execution queue
(hence the first Execution's entry and outcome) and the session table
unchanged. `hfresh` states that the rejected request's fresh uuid is not an
existing queue key. -/
theorem C2_busy_reject (s : ControllerState)
    (sessionId executionId userInput : String)
    (secCheck : Except String (Bool × List String))
    (initialShot : Except String String) (parseResult : AIParseResponse)
    (execRes : Nat → Except String BrowserResponse)
    (shotRes : Nat → Except String String)
    (pageRes : Nat → Except String (String × String)) (now startTime : Nat)
    (session : ClientSession) (bs : BrowserInstanceState)
    (hsess : mapGet s.clientSessions sessionId = some session)
    (hinst : mapGet s.browserInstances sessionId = some bs)
    (hbusy : bs.status = BrowserStatus.busy)
    (hfresh : mapGet s.executionQueue executionId = none) :
    (handleExecuteCommand s sessionId executionId userInput secCheck initialShot
        parseResult execRes shotRes pageRes now startTime).events
      = [ServerEvent.commandResult false none
          (some "Browser not ready. Status: busy") (now - startTime)] ∧
    (handleExecuteCommand s sessionId executionId userInput secCheck initialShot
        parseResult execRes shotRes pageRes now startTime).state.browserInstances
      = s.browserInstances ∧
    (handleExecuteCommand s sessionId executionId userInput secCheck initialShot
        parseResult execRes shotRes pageRes now startTime).state.executionQueue
      = s.executionQueue ∧
    (handleExecuteCommand s sessionId executionId userInput secCheck initialShot
        parseResult execRes shotRes pageRes now startTime).state.clientSessions
      = s.clientSessions ∧
    (handleExecuteCommand s sessionId executionId userInput secCheck initialShot
        parseResult execRes shotRes pageRes now startTime).calls = [] := by
  have hmsg : "Browser not ready. Status: " ++ statusStr bs.status
      = "Browser not ready. Status: busy" := by rw [hbusy]; rfl
  simp only [handleExecuteCommand, hsess, hinst]
  rw [if_pos (by simp [hbusy])]
  refine ⟨?_, rfl, ?_, rfl, rfl⟩
  · simp [handlerCatch, hmsg]
  · show mapDelete s.executionQueue executionId = s.executionQueue
    exact mapDelete_of_get_none _ _ hfresh

/-- C2 witness: the busy fixture rejects a second submission unchanged. -/
theorem C2_busy_witness :
    (handleExecuteCommand stateBusy "s1" "e1" "go" (.ok (true, [])) (.ok "shot")
        ⟨true, some [cmdWait], none⟩ allOk shotOk pageOk 5 0).events
      = [ServerEvent.commandResult false none
          (some "Browser not ready. Status: busy") (5 - 0)] ∧
    (handleExecuteCommand stateBusy "s1" "e1" "go" (.ok (true, [])) (.ok "shot")
        ⟨true, some [cmdWait], none⟩ allOk shotOk pageOk 5 0).state.browserInstances
      = stateBusy.browserInstances ∧
    (handleExecuteCommand stateBusy "s1" "e1" "go" (.ok (true, [])) (.ok "shot")
        ⟨true, some [cmdWait], none⟩ allOk shotOk pageOk 5 0).state.executionQueue
      = stateBusy.executionQueue ∧
    (handleExecuteCommand stateBusy "s1" "e1" "go" (.ok (true, [])) (.ok "shot")
        ⟨true, some [cmdWait], none⟩ allOk shotOk pageOk 5 0).state.clientSessions
      = stateBusy.clientSessions ∧
    (handleExecuteCommand stateBusy "s1" "e1" "go" (.ok (true, [])) (.ok "shot")
        ⟨true, some [cmdWait], none⟩ allOk shotOk pageOk 5 0).calls = [] :=
  C2_busy_reject stateBusy "s1" "e1" "go" (.ok (true, [])) (.ok "shot")
    ⟨true, some [cmdWait], none⟩ allOk shotOk pageOk 5 0 sessionA instanceBusy
    rfl rfl rfl rfl

/-! ### Claim C3 -/

/-- C3: for every `execute_command` request — any state and any oracle
outcomes — the submission handler (modelled as a total function: the whole
body is try/catch/finally, so no exception propagates to the caller) emits
exactly one terminal `command_result`, as the final event, so every
`command_progress` event precedes it. -/
theorem C3_single_result (s : ControllerState)
    (sessionId executionId userInput : String)
    (secCheck : Except String (Bool × List String))
    (initialShot : Except String String) (parseResult : AIParseResponse)
    (execRes : Nat → Except String BrowserResponse)
    (shotRes : Nat → Except String String)
    (pageRes : Nat → Except String (String × String)) (now startTime : Nat) :
    ∃ es r, (handleExecuteCommand s sessionId executionId userInput secCheck
        initialShot parseResult execRes shotRes pageRes now startTime).events
        = es ++ [r] ∧
      isCommandResult r = true ∧ ∀ e ∈ es, isCommandResult e = false :=
  handler_shape s sessionId executionId userInput secCheck initialShot parseResult
    execRes shotRes pageRes now startTime

/-- Under a present session, a ready instance, passing validation, a
resolved initial screenshot and a successful parse, the submission handler
reaches its execution phase. -/
theorem handler_reduces_to_run (s : ControllerState)
    (sessionId executionId userInput : String)
    (secCheck : Except String (Bool × List String)) (shot0 : String)
    (parseResult : AIParseResponse) (cmds : List BrowserCommand)
    (execRes : Nat → Except String BrowserResponse)
    (shotRes : Nat → Except String String)
    (pageRes : Nat → Except String (String × String)) (now startTime : Nat)
    (session : ClientSession) (bs : BrowserInstanceState)
    (hsess : mapGet s.clientSessions sessionId = some session)
    (hinst : mapGet s.browserInstances sessionId = some bs)
    (hready : bs.status = BrowserStatus.ready)
    (hval : validateCommandInput userInput secCheck = none)
    (hparse1 : parseResult.success = true)
    (hparse2 : parseResult.commands = some cmds) :
    handleExecuteCommand s sessionId executionId userInput secCheck (.ok shot0)
        parseResult execRes shotRes pageRes now startTime
      = handlerRun s sessionId executionId userInput session cmds execRes shotRes
          pageRes now startTime := by
  simp only [handleExecuteCommand, hsess, hinst]
  rw [if_neg (by simp [hready])]
  simp only [hval]
  rw [if_neg (by simp [hparse1, hparse2])]
  simp [hparse2]

/-! ### Claim C1 -/

/-- C1 counterexample: a batch of two commands where step 2 fails. The
terminal `command_result` delivered to the client is
`{success := false, data := none, error := "boom"}` — its `data` field is
`none`, so it does **not** contain the k-1 = 1 successful per-command
results the claim promises (only the failing step's error message is
returned). The fail-fast half does hold here: only commands 0 and 1 were
dispatched. -/
theorem C1_counterexample :
    ((handleExecuteCommand stateReady "s1" "e1" "go" (.ok (true, [])) (.ok "shot")
        ⟨true, some [cmdWait, cmdWait], none⟩ execResFailAt1 shotOk pageOk 5
        0).events.filter (fun e => isCommandResult e)
      = [ServerEvent.commandResult false none (some "boom") 5]) ∧
    (handleExecuteCommand stateReady "s1" "e1" "go" (.ok (true, [])) (.ok "shot")
        ⟨true, some [cmdWait, cmdWait], none⟩ execResFailAt1 shotOk pageOk 5
        0).calls = [0, 1] :=
  ⟨rfl, rfl⟩

/-- C1 (amended): a command batch failing at step k (1-indexed) is
fail-fast — exactly commands 0..k-1 are dispatched, none after the failing
one — and the single terminal `command_result` carries `success := false`,
the failing step's error message and **no per-command data** (`data =
none`): the k-1 successful results are accumulated in the execution
context but are not included in the result returned to the client. -/
theorem C1_fail_fast (s : ControllerState)
    (sessionId executionId userInput : String)
    (secCheck : Except String (Bool × List String)) (shot0 : String)
    (parseResult : AIParseResponse) (cmds : List BrowserCommand)
    (execRes : Nat → Except String BrowserResponse)
    (shotRes : Nat → Except String String)
    (pageRes : Nat → Except String (String × String)) (now startTime : Nat)
    (session : ClientSession) (bs : BrowserInstanceState) (k : Nat)
    (failResp : BrowserResponse)
    (hsess : mapGet s.clientSessions sessionId = some session)
    (hinst : mapGet s.browserInstances sessionId = some bs)
    (hready : bs.status = BrowserStatus.ready)
    (hval : validateCommandInput userInput secCheck = none)
    (hparse1 : parseResult.success = true)
    (hparse2 : parseResult.commands = some cmds)
    (hk1 : 1 ≤ k) (hk2 : k ≤ cmds.length)
    (hok : ∀ m, m < k - 1 → ∃ r, execRes m = .ok r ∧ r.success = true)
    (hfail : execRes (k - 1) = .ok failResp)
    (hfs : failResp.success = false)
    (hshot : ∀ i, ∃ v, shotRes i = .ok v) :
    ((handleExecuteCommand s sessionId executionId userInput secCheck (.ok shot0)
        parseResult execRes shotRes pageRes now startTime).events.filter
        (fun e => isCommandResult e)
      = [ServerEvent.commandResult false none
          (some (failResp.error.getD "Command execution failed"))
          (now - startTime)]) ∧
    (handleExecuteCommand s sessionId executionId userInput secCheck (.ok shot0)
        parseResult execRes shotRes pageRes now startTime).calls
      = List.range k := by
  rw [handler_reduces_to_run s sessionId executionId userInput secCheck shot0
    parseResult cmds execRes shotRes pageRes now startTime session bs hsess hinst
    hready hval hparse1 hparse2]
  obtain ⟨hfil, hcalls⟩ := handlerRun_fail s sessionId executionId userInput session
    cmds execRes shotRes pageRes now startTime bs (k - 1) failResp hinst hshot
    (by omega) hok hfail hfs
  refine ⟨hfil, ?_⟩
  rw [hcalls, List.range_eq_range']
  congr 1
  omega

/-- C1 witness: the amended theorem at the concrete two-command batch
failing at step 2. -/
theorem C1_fail_fast_witness :
    ((handleExecuteCommand stateReady "s1" "e1" "go" (.ok (true, [])) (.ok "shot")
        ⟨true, some [cmdWait, cmdWait], none⟩ execResFailAt1 shotOk pageOk 5
        0).events.filter (fun e => isCommandResult e)
      = [ServerEvent.commandResult false none
          (some (failBoom.error.getD "Command execution failed")) (5 - 0)]) ∧
    (handleExecuteCommand stateReady "s1" "e1" "go" (.ok (true, [])) (.ok "shot")
        ⟨true, some [cmdWait, cmdWait], none⟩ execResFailAt1 shotOk pageOk 5
        0).calls = List.range 2 :=
  C1_fail_fast stateReady "s1" "e1" "go" (.ok (true, [])) "shot"
    ⟨true, some [cmdWait, cmdWait], none⟩ [cmdWait, cmdWait] execResFailAt1 shotOk
    pageOk 5 0 sessionA instanceReady 2 failBoom rfl rfl rfl rfl rfl rfl
    (by omega) (by simp)
    (by
      intro m hm
      have hm0 : m = 0 := by omega
      subst hm0
      exact ⟨okResponse, rfl, rfl⟩)
    rfl rfl (fun _ => ⟨"shot", rfl⟩)

/-! ### Claim C6 -/

/-- C6: within any single Execution the emitted progress percentages are
monotonically non-decreasing (any state, any oracle outcomes), and on a
fully successful run the progress sequence is exactly the parsing event at
10, then for each command index i (0-based, n commands) the value
`progressPercent i n = round(80*(i+1)/n) + 20`, then the final event at
exactly 100. -/
theorem C6_progress (s : ControllerState)
    (sessionId executionId userInput : String)
    (secCheck : Except String (Bool × List String))
    (initialShot : Except String String) (parseResult : AIParseResponse)
    (execRes : Nat → Except String BrowserResponse)
    (shotRes : Nat → Except String String)
    (pageRes : Nat → Except String (String × String)) (now startTime : Nat) :
    List.Chain' (· ≤ ·) (progressValues (handleExecuteCommand s sessionId executionId
        userInput secCheck initialShot parseResult execRes shotRes pageRes now
        startTime).events) ∧
    (∀ (session : ClientSession) (bs : BrowserInstanceState)
        (cmds : List BrowserCommand) (shot0 : String),
      mapGet s.clientSessions sessionId = some session →
      mapGet s.browserInstances sessionId = some bs →
      bs.status = BrowserStatus.ready →
      validateCommandInput userInput secCheck = none →
      initialShot = .ok shot0 →
      parseResult.success = true →
      parseResult.commands = some cmds →
      (∀ i, ∃ r, execRes i = .ok r ∧ r.success = true) →
      (∀ i, ∃ v, shotRes i = .ok v) →
      progressValues (handleExecuteCommand s sessionId executionId userInput secCheck
          initialShot parseResult execRes shotRes pageRes now startTime).events
        = 10 :: ((List.range' 0 cmds.length).map
            (fun m => progressPercent m cmds.length) ++ [100])) := by
  constructor
  · rcases handler_progress_shape s sessionId executionId userInput secCheck
      initialShot parseResult execRes shotRes pageRes now startTime with
      h | h | ⟨k, tail, hk, htail, h⟩
    · rw [h]; exact List.chain'_nil
    · rw [h]; exact List.chain'_singleton _
    · rw [h]; exact chain'_progress k _ hk tail htail
  · intro session bs cmds shot0 hsess hinst hready hval hshot0 hparse1 hparse2
      hex hshot
    subst hshot0
    rw [handler_reduces_to_run s sessionId executionId userInput secCheck shot0
      parseResult cmds execRes shotRes pageRes now startTime session bs hsess hinst
      hready hval hparse1 hparse2]
    exact handlerRun_success_progress s sessionId executionId userInput session cmds
      execRes shotRes pageRes now startTime bs hinst hex hshot

/-- C6 witness: two successful commands give the progress sequence
[10, 60, 100, 100] — monotone, per-command formula values, final 100. -/
theorem C6_progress_witness :
    List.Chain' (· ≤ ·) (progressValues (handleExecuteCommand stateReady "s1" "e1"
        "go" (.ok (true, [])) (.ok "shot") ⟨true, some [cmdWait, cmdWait], none⟩
        allOk shotOk pageOk 5 0).events) ∧
    progressValues (handleExecuteCommand stateReady "s1" "e1" "go" (.ok (true, []))
        (.ok "shot") ⟨true, some [cmdWait, cmdWait], none⟩ allOk shotOk pageOk 5
        0).events = [10, 60, 100, 100] := by
  have h := C6_progress stateReady "s1" "e1" "go" (.ok (true, [])) (.ok "shot")
    ⟨true, some [cmdWait, cmdWait], none⟩ allOk shotOk pageOk 5 0
  refine ⟨h.1, ?_⟩
  have h2 := h.2 sessionA instanceReady [cmdWait, cmdWait] "shot" rfl rfl rfl rfl rfl
    rfl rfl (fun _ => ⟨okResponse, rfl, rfl⟩) (fun _ => ⟨"shot", rfl⟩)
  rw [h2]
  rfl

/-! ### Claim C7 -/

/-- C7 counterexample: an execution whose single command fails leaves the
browser instance in status `error` with `currentCommand` **still set** to
the command captured at acquisition — the failure path of
`executeCommands` does not clear the current-command field, contradicting
the claim that it is cleared in both cases. -/
theorem C7_counterexample :
    (mapGet (executeCommands stateReady "s1" (mkExecution "s1" "e1" "go" [cmdWait] 0)
        execAllFail shotOk pageOk 5).state.browserInstances "s1").map
        (fun b => (b.status, b.currentCommand))
      = some (BrowserStatus.error, some cmdWait) :=
  rfl

/-- C7 (amended): releasing the Resource at the end of an Execution
transitions `busy → ready` on success with the current-command field
cleared; on failure it transitions `busy → error`, recording the error, but
the current-command field is **not** cleared — it retains the command set
at acquisition (`execution.commands[execution.currentIndex]`). -/
theorem C7_release (s : ControllerState) (sessionId : String)
    (execution : ExecutionContext)
    (execRes : Nat → Except String BrowserResponse)
    (shotRes : Nat → Except String String)
    (pageRes : Nat → Except String (String × String)) (now : Nat)
    (bs : BrowserInstanceState)
    (hinst : mapGet s.browserInstances sessionId = some bs) :
    ((executeCommands s sessionId execution execRes shotRes pageRes now).thrown
        = none →
      ∃ bs', mapGet (executeCommands s sessionId execution execRes shotRes pageRes
          now).state.browserInstances sessionId = some bs' ∧
        bs'.status = BrowserStatus.ready ∧ bs'.currentCommand = none) ∧
    (∀ msg, (executeCommands s sessionId execution execRes shotRes pageRes now).thrown
        = some msg →
      ∃ bs', mapGet (executeCommands s sessionId execution execRes shotRes pageRes
          now).state.browserInstances sessionId = some bs' ∧
        bs'.status = BrowserStatus.error ∧
        bs'.currentCommand = execution.commands.get? execution.currentIndex ∧
        bs'.error = some ⟨msg, some "COMMAND_EXECUTION_FAILED", now⟩) := by
  have hbsp := execLoop_bs execution.commands.length execRes shotRes pageRes now
    execution.commands 0 (busyInstance bs execution)
  simp only [executeCommands, hinst]
  generalize hlo : execLoop execution.commands.length execRes shotRes pageRes now
    execution.commands 0 (busyInstance bs execution) = lo at hbsp ⊢
  cases hth : lo.thrown with
  | some msg =>
    rw [executeCommandsFinish_some _ _ _ _ _ _ hth]
    constructor
    · intro h
      simp at h
    · intro m hm
      have hmm : msg = m := by
        simpa using hm
      subst hmm
      exact ⟨_, mapGet_mapSet_self _ _ _, rfl, hbsp.2, rfl⟩
  | none =>
    rw [executeCommandsFinish_none _ _ _ _ _ hth]
    constructor
    · intro _
      exact ⟨_, mapGet_mapSet_self _ _ _, rfl, rfl⟩
    · intro m hm
      simp at hm

/-- C7 witness: the amended theorem at a concrete state (failure case
exercised by `C7_counterexample`'s input). -/
theorem C7_release_witness :
    ((executeCommands stateReady "s1" (mkExecution "s1" "e1" "go" [cmdWait] 0)
        execAllFail shotOk pageOk 5).thrown = none →
      ∃ bs', mapGet (executeCommands stateReady "s1"
          (mkExecution "s1" "e1" "go" [cmdWait] 0) execAllFail shotOk pageOk
          5).state.browserInstances "s1" = some bs' ∧
        bs'.status = BrowserStatus.ready ∧ bs'.currentCommand = none) ∧
    (∀ msg, (executeCommands stateReady "s1" (mkExecution "s1" "e1" "go" [cmdWait] 0)
        execAllFail shotOk pageOk 5).thrown = some msg →
      ∃ bs', mapGet (executeCommands stateReady "s1"
          (mkExecution "s1" "e1" "go" [cmdWait] 0) execAllFail shotOk pageOk
          5).state.browserInstances "s1" = some bs' ∧
        bs'.status = BrowserStatus.error ∧
        bs'.currentCommand = (mkExecution "s1" "e1" "go" [cmdWait]
            0).commands.get? (mkExecution "s1" "e1" "go" [cmdWait] 0).currentIndex ∧
        bs'.error = some ⟨msg, some "COMMAND_EXECUTION_FAILED", 5⟩) :=
  C7_release stateReady "s1" (mkExecution "s1" "e1" "go" [cmdWait] 0) execAllFail
    shotOk pageOk 5 instanceReady rfl

/-! ### Claim C8 -/

/-- C8 counterexample: `reset_browser` on a session whose instance is
`busy` with a command in flight (`instanceBusy.currentCommand` is set)
performs the reset anyway — there is no busy check: the instance
transitions through `initializing` to `ready` and no busy error is
emitted, contradicting the claim that reset fails with `ResourceBusy`
while a command is actively in flight. -/
theorem C8_counterexample :
    (handleResetBrowser stateBusy "s1" (.ok ()) 7).2
      = [ServerEvent.browserStatus "initializing",
         ServerEvent.browserStatus "ready"] ∧
    (mapGet (handleResetBrowser stateBusy "s1" (.ok ()) 7).1.browserInstances
        "s1").map (fun b => b.status) = some BrowserStatus.ready ∧
    instanceBusy.currentCommand = some { action := Action.navigate } :=
  ⟨rfl, rfl, rfl⟩

/-- C8 (amended): `reset_browser` fails (emitting an `error` event whose
details carry "Browser instance not found") only when the session has no
browser instance; otherwise it proceeds from **any** state — including
`busy` with a command in flight, there is no in-flight check — setting the
status to `initializing` and, when the engine reset succeeds, to `ready`,
discarding the page metadata and the error state. -/
theorem C8_reset (s : ControllerState) (sessionId : String)
    (resetRes : Except String Unit) (now : Nat) :
    (mapGet s.browserInstances sessionId = none →
      handleResetBrowser s sessionId resetRes now
        = (s, [ServerEvent.errorEvent "Browser reset failed"
            (some "BROWSER_INIT_FAILED") (some "Browser instance not found")])) ∧
    (∀ bs, mapGet s.browserInstances sessionId = some bs → resetRes = .ok () →
      mapGet (handleResetBrowser s sessionId resetRes now).1.browserInstances
          sessionId
        = some { bs with
                 status := BrowserStatus.ready,
                 currentUrl := none,
                 pageTitle := none,
                 lastActivity := now,
                 error := none } ∧
      (handleResetBrowser s sessionId resetRes now).2
        = [ServerEvent.browserStatus "initializing",
           ServerEvent.browserStatus "ready"]) := by
  constructor
  · intro h
    simp [handleResetBrowser, h]
  · intro bs hbs hok
    subst hok
    simp only [handleResetBrowser, hbs]
    refine ⟨mapGet_mapSet_self _ _ _, ?_⟩
    trivial

/-- C8 witness: the amended theorem applied to the busy fixture. -/
theorem C8_reset_witness :
    mapGet (handleResetBrowser stateBusy "s1" (.ok ()) 7).1.browserInstances "s1"
      = some { instanceBusy with
               status := BrowserStatus.ready,
               currentUrl := none,
               pageTitle := none,
               lastActivity := 7,
               error := none } ∧
    (handleResetBrowser stateBusy "s1" (.ok ()) 7).2
      = [ServerEvent.browserStatus "initializing",
         ServerEvent.browserStatus "ready"] :=
  (C8_reset stateBusy "s1" (.ok ()) 7).2 instanceBusy rfl rfl

/-! ### Claim C10 -/

theorem addSuspiciousActivity_counts (st : SecurityState) (clientId : String) :
    (addSuspiciousActivity st clientId).requestCount = st.requestCount ∧
    (addSuspiciousActivity st clientId).lastRequestTime = st.lastRequestTime := by
  unfold addSuspiciousActivity blockIP
  by_cases h : (mapGet st.suspiciousActivities clientId).getD 0 ≥ 10 <;> simp [h]

/-- Within-window calls: starting from a per-client count of `k`, the j-th
further call (0-based) returns `true` exactly when `k + j < maxRequests`. -/
theorem runCalls_burst (clientId : String) (m w : Nat) :
    ∀ (ts : List Nat) (st : SecurityState) (k tprev : Nat),
      (mapGet st.requestCount clientId).getD 0 = k →
      (mapGet st.lastRequestTime clientId).getD 0 = tprev →
      gapsOk w tprev ts →
      runCalls st clientId m w ts
        = (List.range ts.length).map (fun j => decide (k + j < m)) := by
  intro ts
  induction ts with
  | nil => intro st k tprev _ _ _; rfl
  | cons t ts ih =>
    intro st k tprev hk ht hgaps
    obtain ⟨hgap, hgaps2⟩ := hgaps
    have hnotreset : ¬ (t - (mapGet st.lastRequestTime clientId).getD 0 > w) := by
      rw [ht]
      omega
    simp only [runCalls, checkRateLimit]
    rw [if_neg hnotreset]
    have hcount : ∀ st2 : SecurityState,
        st2.requestCount = mapSet st.requestCount clientId
          ((mapGet st.requestCount clientId).getD 0 + 1) →
        st2.lastRequestTime = mapSet st.lastRequestTime clientId t →
        runCalls st2 clientId m w ts
          = (List.range ts.length).map (fun j => decide ((k + 1) + j < m)) := by
      intro st2 h1 h2
      refine ih st2 (k + 1) t ?_ ?_ hgaps2
      · rw [h1, mapGet_mapSet_self, hk]
        rfl
      · rw [h2, mapGet_mapSet_self]
        rfl
    have hrange : (List.range (ts.length + 1)).map (fun j => decide (k + j < m))
        = decide (k < m)
          :: (List.range ts.length).map (fun j => decide ((k + 1) + j < m)) := by
      rw [List.range_succ_eq_map, List.map_cons, List.map_map]
      refine congrArg₂ _ (by rw [Nat.add_zero]) ?_
      refine List.map_congr_left ?_
      intro j _
      refine decide_eq_decide.mpr ?_
      constructor <;> intro <;> omega
    by_cases hge : (mapGet st.requestCount clientId).getD 0 ≥ m
    · rw [if_pos hge]
      rw [hk] at hge
      simp only [List.length_cons, hrange]
      refine congrArg₂ _ ?_ ?_
      · simp [hge, Nat.not_lt_of_ge]
      · refine hcount _ ?_ ?_
        · rw [(addSuspiciousActivity_counts _ _).1]
        · rw [(addSuspiciousActivity_counts _ _).2]
    · rw [if_neg hge]
      rw [hk] at hge
      simp only [List.length_cons, hrange]
      refine congrArg₂ _ ?_ (hcount _ rfl rfl)
      simp
      omega

/-- C10 counterexample: fresh client, `maxRequests = 2`, `windowMs = 10`,
calls at times 100, 101, 102. The call at 100 arrives more than `windowMs`
after the (absent) previous call, so it resets the count and returns true.
The calls at 101 and 102 are the calls whose gap from the preceding call
(1 ms) is at most `windowMs`; the claim says the first `maxRequests = 2` of
them return true, yet the code returns `false` already for the second one
(the resetting call counted toward the limit), giving the trace
[true, true, false] instead of the claimed [true, true, true]. -/
theorem C10_counterexample :
    runCalls ⟨[], [], [], []⟩ "c" 2 10 [100, 101, 102] = [true, true, false] :=
  rfl

/-- C10 (amended): the resetting call counts toward the limit. A call
arriving more than `windowMs` after the client's last recorded call resets
the count and returns true; among the following calls whose gap from the
preceding call is at most `windowMs`, exactly the first `maxRequests - 1`
return true and every further such call returns false (so a burst gets
`maxRequests` successes in total, the reset call included). State for
distinct client ids is fully independent: a call for one client leaves
every other client's count and last-request time unchanged. -/
theorem C10_rate (st : SecurityState) (clientId : String) (m w t0 : Nat)
    (ts : List Nat)
    (hreset : t0 - (mapGet st.lastRequestTime clientId).getD 0 > w)
    (hgaps : gapsOk w t0 ts) :
    runCalls st clientId m w (t0 :: ts)
      = true :: (List.range ts.length).map (fun j => decide (j + 1 < m)) ∧
    (∀ clientId2, clientId2 ≠ clientId → ∀ maxR winMs t,
      mapGet (checkRateLimit st clientId maxR winMs t).2.requestCount clientId2
        = mapGet st.requestCount clientId2 ∧
      mapGet (checkRateLimit st clientId maxR winMs t).2.lastRequestTime clientId2
        = mapGet st.lastRequestTime clientId2) := by
  constructor
  · simp only [runCalls, checkRateLimit]
    rw [if_pos hreset]
    refine congrArg₂ _ rfl ?_
    have htail := runCalls_burst clientId m w ts
      ⟨mapSet st.lastRequestTime clientId t0, mapSet st.requestCount clientId 1,
        st.suspiciousActivities, st.blockedIPs⟩ 1 t0
      (by rw [mapGet_mapSet_self]; rfl) (by rw [mapGet_mapSet_self]; rfl) hgaps
    rw [htail]
    refine List.map_congr_left ?_
    intro j _
    refine decide_eq_decide.mpr ?_
    constructor <;> intro <;> omega
  · intro c2 hc2 maxR winMs t
    simp only [checkRateLimit]
    by_cases h1 : t - (mapGet st.lastRequestTime clientId).getD 0 > winMs
    · rw [if_pos h1]
      exact ⟨mapGet_mapSet_ne _ _ _ _ hc2, mapGet_mapSet_ne _ _ _ _ hc2⟩
    · rw [if_neg h1]
      by_cases h2 : (mapGet st.requestCount clientId).getD 0 ≥ maxR
      · rw [if_pos h2]
        rw [(addSuspiciousActivity_counts _ _).1,
          (addSuspiciousActivity_counts _ _).2]
        exact ⟨mapGet_mapSet_ne _ _ _ _ hc2, mapGet_mapSet_ne _ _ _ _ hc2⟩
      · rw [if_neg h2]
        exact ⟨mapGet_mapSet_ne _ _ _ _ hc2, mapGet_mapSet_ne _ _ _ _ hc2⟩

/-- C10 witness: the amended theorem on the concrete trace of
`C10_counterexample` plus independence for a second client. -/
theorem C10_rate_witness :
    runCalls ⟨[], [], [], []⟩ "c" 2 10 [100, 101, 102] = [true, true, false] ∧
    mapGet (checkRateLimit ⟨[], [], [], []⟩ "c" 2 10 100).2.requestCount "d"
      = none := by
  have h := C10_rate ⟨[], [], [], []⟩ "c" 2 10 100 [101, 102]
    (by decide) (by constructor <;> simp [gapsOk])
  refine ⟨h.1.trans (by decide), ?_⟩
  rw [(h.2 "d" (by decide) 2 10 100).1]
  rfl

end Pilot
